import Mathlib

/-!
Verification of the JitArm64 instruction translators of Dolphin-MMJR
(Source/Core/Core/PowerPC/JitArm64/JitArm64_Integer.cpp and
JitArm64_FloatingPoint.cpp) against the natural-language specification.

The development is a shallow embedding:

* a small host-instruction language (`HInst`) with an executable
  semantics (`step` / `exec`) over a host state of general registers,
  NZCV flags, vector registers, and the guest-state byte `xer_ca`;
* a translation-time state (`JitS`) holding the per-guest-register
  immediate bindings, the carry-flag tracker state (`CarryFlag`), and
  the list of emitted host instructions;
* one Lean function per translated source function (same names), each
  mirroring the source's control flow; translators return `none` when
  the source takes a FALLBACK_IF / JITDISABLE path (deferring the
  instruction to the interpreter without touching any state).

Code of the repository that lives outside the two translated files
(the register cache, Interpreter::Helper_Carry, MakeRotationMask,
Common::RotateLeft, the bit-exact float-conversion routine reached via
`BL cstd`, and the behavior of the host instructions themselves) is
modelled from the specification; each such definition carries a doc
comment saying so.
-/

set_option linter.unusedVariables false
set_option linter.unnecessarySeqFocus false
set_option linter.unnecessarySimpa false
set_option linter.unreachableTactic false
set_option linter.unusedTactic false

namespace DolphinJit

/-- 32-bit wraparound, the value of a `u32` expression. -/
def w32 (n : Nat) : Nat := n % 2 ^ 32

/-- 64-bit wraparound, the value of a `u64` expression. -/
def w64 (n : Nat) : Nat := n % 2 ^ 64

/-- Signed interpretation of a 32-bit pattern (a C++ cast to `s32`). -/
def sext32 (n : Nat) : Int :=
  if n % 2 ^ 32 < 2 ^ 31 then (n % 2 ^ 32 : Int) else (n % 2 ^ 32 : Int) - 2 ^ 32

/-- Two's-complement 32-bit pattern of an integer (a cast to `u32`). -/
def toU32 (i : Int) : Nat := (i % 2 ^ 32).toNat

/-- Two's-complement 64-bit pattern of an integer (a cast to `u64`). -/
def toU64 (i : Int) : Nat := (i % 2 ^ 64).toNat

/-- Signed interpretation of a 64-bit pattern (a C++ cast to `s64`). -/
def toS64 (n : Nat) : Int :=
  if n % 2 ^ 64 < 2 ^ 63 then (n % 2 ^ 64 : Int) else (n % 2 ^ 64 : Int) - 2 ^ 64

/-- The 64-bit pattern written by a host SXTW: the low 32 bits of the
source, sign-extended to 64 bits. -/
def sextPat (n : Nat) : Nat := toU64 (sext32 n)

/-- Bitwise complement of a `u32` value (C++ `~` on `u32`). -/
def notW (n : Nat) : Nat := w32 n ^^^ (2 ^ 32 - 1)

/-- Bitwise complement of a `u64` value. -/
def notX (n : Nat) : Nat := w64 n ^^^ (2 ^ 64 - 1)

/-- `u32` subtraction with wraparound. -/
def subW (x y : Nat) : Nat := (w32 x + (2 ^ 32 - w32 y)) % 2 ^ 32

/-- Modelled from the spec: `Interpreter::Helper_Carry` (declared in the
interpreter, outside the translated files) is the reference carry
predicate of the guest's 32-bit addition; spec §8 requires the
translators' carry outcomes to be bit-identical to it.  It reports
whether `v1 + v2` carries out of 32 bits, phrased as the interpreter
phrases it (`value2 > ~value1`). -/
def Helper_Carry (v1 v2 : Nat) : Bool := decide (notW v1 < w32 v2)

/-- Modelled from the spec: `Common::RotateLeft` (declared in common
code, outside the translated files), a 32-bit rotate left by `n mod 32`
places. -/
def RotateLeft (v n : Nat) : Nat :=
  w32 v % 2 ^ (32 - n % 32) * 2 ^ (n % 32) + w32 v / 2 ^ (32 - n % 32)

/-- 32-bit rotate right by `n mod 32` places (the ROR shifted-operand
form of the host AND instruction). -/
def ror32 (v n : Nat) : Nat :=
  w32 v / 2 ^ (n % 32) + w32 v % 2 ^ (n % 32) * 2 ^ (32 - n % 32)

/-- Modelled from the spec: `MakeRotationMask MB ME` (declared outside
the translated files) is the guest rotate instructions' mask with
one-bits in guest bit positions `MB..ME` (IBM numbering, bit 0 the most
significant), wrapping around when `ME < MB` (spec §4.3: full mask,
bit-select at either end, generic mask-and-rotate all derive from it). -/
def MakeRotationMask (mb me : Nat) : Nat :=
  if mb ≤ me then 2 ^ (32 - mb) - 2 ^ (31 - me)
  else 2 ^ 32 - 1 - (2 ^ (31 - me) - 2 ^ (32 - mb))

/-- Arithmetic shift right of a 32-bit pattern (sign-propagating). -/
def asr32 (v sh : Nat) : Nat := toU32 (Int.fdiv (sext32 v) (2 ^ sh))

/-- Truncating (C-style) signed 32-bit division pattern; division by
zero yields 0, as the host SDIV instruction does. -/
def sdivPat (a b : Nat) : Nat :=
  if w32 b = 0 then 0 else toU32 (Int.tdiv (sext32 a) (sext32 b))

/-- AArch64 condition codes used by the translators. -/
inductive Cond
  | eq | ne | cs | cc | mi | pl | vs | vc | gt | ge | lt | le
deriving DecidableEq, Repr

/-- The floating-point two-operand arithmetic operations emitted by
`fp_arith`. -/
inductive FPK2
  | fdiv | fsub | fadd | fmul
deriving DecidableEq, Repr

/-- The floating-point fused three-operand operations emitted by
`fp_arith`. -/
inductive FPK3
  | fnmsub | fmadd | fmsub | fnmadd
deriving DecidableEq, Repr

/-- External fixed-address helper routines reached with BL (spec §6). -/
inductive BLTarget
  | fprfSingle | fprfDouble | cstd | cdts | fres | frsqrte
deriving DecidableEq, Repr

/-- The host instructions the translated code emits.  General registers
are numbered: 31 is WZR/XZR (reads as zero, writes discarded), guest
GPR `g` is bound to host register `32 + g`, condition-register fields
live in `80 + crf`, and scratch registers handed out by the register
cache are `100, 101, ...`.  Immediate-building emitter helpers
(`MOVI2R`, `ADDI2R`, `SUBI2R`, `ANDI2R`) are single pseudo-instructions
here, as they are single calls into the external assembler. -/
inductive HInst
  | movi32 (rd imm : Nat)
  | movi64 (rd imm : Nat)
  | mov32 (rd rn : Nat)
  | mvn32 (rd rn : Nat)
  | add32 (rd rn rm : Nat)
  | adds32 (rd rn rm : Nat)
  | addi32 (rd rn imm : Nat)
  | addsi32 (rd rn imm : Nat)
  | adc32 (rd rn rm : Nat)
  | adcs32 (rd rn rm : Nat)
  | sub32 (rd rn rm : Nat)
  | subs32 (rd rn rm : Nat)
  | sub64 (rd rn rm : Nat)
  | subi64 (rd rn imm : Nat)
  | and32 (rd rn rm : Nat)
  | andi32 (rd rn imm : Nat)
  | bic32 (rd rn rm : Nat)
  | orr32 (rd rn rm : Nat)
  | orn32 (rd rn rm : Nat)
  | eor32 (rd rn rm : Nat)
  | eon32 (rd rn rm : Nat)
  | ands32 (rd rn rm : Nat)
  | andsLsl (rd rn rm sh : Nat)
  | andRor (rd rn rm sh : Nat)
  | tstLsl (rn rm sh : Nat)
  | tst32 (rn rm : Nat)
  | cmp32i (rn imm : Nat)
  | cmp32r (rn rm : Nat)
  | cmn32r (rn rm : Nat)
  | ccmn32i (rn imm nzcv : Nat) (c : Cond)
  | cset (rd : Nat) (c : Cond)
  | csinc (rd rn rm : Nat) (c : Cond)
  | lsl32 (rd rn sh : Nat)
  | lsr32 (rd rn sh : Nat)
  | asr32i (rd rn sh : Nat)
  | lsl64 (rd rn sh : Nat)
  | lsr64 (rd rn sh : Nat)
  | asrv64 (rd rn rm : Nat)
  | sxtw (rd rn : Nat)
  | ubfx32 (rd rn lsb width : Nat)
  | ubfiz32 (rd rn lsb width : Nat)
  | udiv32 (rd rn rm : Nat)
  | sdiv32 (rd rn rm : Nat)
  | ldrbCA (rd : Nat)
  | strbCA (rs : Nat)
  | cbz32 (rn lbl : Nat)
  | bcond (c : Cond) (lbl : Nat)
  | br (lbl : Nat)
  | lbl (l : Nat)
  | vmoviSplat32 (rd imm8 sh : Nat)
  | vmovi64 (rd imm : Nat)
  | vbic (rd rn rm : Nat)
  | vorrSplat32 (rd imm8 sh : Nat)
  | vand (rd rn rm : Nat)
  | vadd64v (rd rn rm : Nat)
  | vaddScalarD (rd rn rm : Nat)
  | fparith2V (k : FPK2) (size rd rn rm : Nat)
  | fparith2S (k : FPK2) (single : Bool) (rd rn rm : Nat)
  | fparith3 (k : FPK3) (single : Bool) (rd rn rm ra : Nat)
  | fmovGpFp (rd vn : Nat) (single : Bool)
  | mov64 (rd rn : Nat)
  | blCall (t : BLTarget)

/-- The host machine state the emitted code acts on: general registers
(64-bit patterns), vector registers (two 64-bit lanes), the NZCV flags,
and the guest-state carry byte `xer_ca` (spec §3). -/
structure HostState where
  regs : Nat → Nat
  fpLo : Nat → Nat
  fpHi : Nat → Nat
  flagN : Bool
  flagZ : Bool
  flagC : Bool
  flagV : Bool
  xerCA : Nat

/-- Read a host register; register 31 is the zero register. -/
def getR (st : HostState) (r : Nat) : Nat := if r = 31 then 0 else st.regs r

/-- Read the 32-bit (W) view of a host register. -/
def r32 (st : HostState) (r : Nat) : Nat := w32 (getR st r)

/-- Write the 32-bit view of a host register (zero-extending into the
full register, as AArch64 W-writes do); writes to 31 are discarded. -/
def setW (st : HostState) (r v : Nat) : HostState :=
  if r = 31 then st else { st with regs := Function.update st.regs r (w32 v) }

/-- Write the 64-bit view of a host register; writes to 31 discarded. -/
def setX (st : HostState) (r v : Nat) : HostState :=
  if r = 31 then st else { st with regs := Function.update st.regs r (w64 v) }

/-- NZCV flags of a 32-bit addition `x + y + cin` (ADDS/ADCS/CMN; CMP
and SUBS are the same with the complemented subtrahend and carry-in 1,
exactly as the hardware computes them). -/
def addFlags (st : HostState) (x y cin : Nat) : HostState :=
  let sum := w32 x + w32 y + cin
  { st with
    flagN := decide (2 ^ 31 ≤ w32 sum)
    flagZ := decide (w32 sum = 0)
    flagC := decide (2 ^ 32 ≤ sum)
    flagV := decide (sext32 (w32 sum) ≠ sext32 x + sext32 y + cin) }

/-- Does the state satisfy an AArch64 condition code? -/
def condHolds (st : HostState) : Cond → Bool
  | .eq => st.flagZ
  | .ne => !st.flagZ
  | .cs => st.flagC
  | .cc => !st.flagC
  | .mi => st.flagN
  | .pl => !st.flagN
  | .vs => st.flagV
  | .vc => !st.flagV
  | .gt => !st.flagZ && (st.flagN == st.flagV)
  | .ge => st.flagN == st.flagV
  | .lt => st.flagN != st.flagV
  | .le => st.flagZ || (st.flagN != st.flagV)

/-- Modelled from the spec: the behavior of the genuinely
floating-point host instructions and of the external BL routines
(spec §6 treats both as external collaborators).  The embedding is
parametric in this interpretation; no theorem below depends on it. -/
structure FPSem where
  arith2V : FPK2 → Nat → Nat × Nat → Nat × Nat → Nat × Nat
  arith2S : FPK2 → Bool → Nat × Nat → Nat × Nat → Nat × Nat
  arith3 : FPK3 → Bool → Nat × Nat → Nat × Nat → Nat × Nat → Nat × Nat
  blEff : BLTarget → HostState → HostState

/-- One step of the host semantics (branch-free instructions). -/
def step (fs : FPSem) (i : HInst) (st : HostState) : HostState :=
  match i with
  | .movi32 rd imm => setW st rd imm
  | .movi64 rd imm => setX st rd imm
  | .mov32 rd rn => setW st rd (r32 st rn)
  | .mvn32 rd rn => setW st rd (r32 st rn ^^^ (2 ^ 32 - 1))
  | .add32 rd rn rm => setW st rd (r32 st rn + r32 st rm)
  | .adds32 rd rn rm =>
      setW (addFlags st (r32 st rn) (r32 st rm) 0) rd (r32 st rn + r32 st rm)
  | .addi32 rd rn imm => setW st rd (r32 st rn + w32 imm)
  | .addsi32 rd rn imm =>
      setW (addFlags st (r32 st rn) (w32 imm) 0) rd (r32 st rn + w32 imm)
  | .adc32 rd rn rm => setW st rd (r32 st rn + r32 st rm + st.flagC.toNat)
  | .adcs32 rd rn rm =>
      setW (addFlags st (r32 st rn) (r32 st rm) st.flagC.toNat) rd
        (r32 st rn + r32 st rm + st.flagC.toNat)
  | .sub32 rd rn rm => setW st rd (subW (r32 st rn) (r32 st rm))
  | .subs32 rd rn rm =>
      setW (addFlags st (r32 st rn) (notW (r32 st rm)) 1) rd
        (subW (r32 st rn) (r32 st rm))
  | .sub64 rd rn rm => setX st rd (w64 (getR st rn + (2 ^ 64 - w64 (getR st rm))))
  | .subi64 rd rn imm => setX st rd (w64 (getR st rn + (2 ^ 64 - w64 imm)))
  | .and32 rd rn rm => setW st rd (r32 st rn &&& r32 st rm)
  | .andi32 rd rn imm => setW st rd (r32 st rn &&& w32 imm)
  | .bic32 rd rn rm => setW st rd (r32 st rn &&& notW (r32 st rm))
  | .orr32 rd rn rm => setW st rd (r32 st rn ||| r32 st rm)
  | .orn32 rd rn rm => setW st rd (r32 st rn ||| notW (r32 st rm))
  | .eor32 rd rn rm => setW st rd (r32 st rn ^^^ r32 st rm)
  | .eon32 rd rn rm => setW st rd (r32 st rn ^^^ notW (r32 st rm))
  | .ands32 rd rn rm =>
      let v := r32 st rn &&& r32 st rm
      let st := { st with
        flagN := decide (2 ^ 31 ≤ v), flagZ := decide (v = 0),
        flagC := false, flagV := false }
      setW st rd v
  | .andsLsl rd rn rm sh =>
      let v := r32 st rn &&& w32 (r32 st rm * 2 ^ (sh % 32))
      let st := { st with
        flagN := decide (2 ^ 31 ≤ v), flagZ := decide (v = 0),
        flagC := false, flagV := false }
      setW st rd v
  | .andRor rd rn rm sh => setW st rd (r32 st rn &&& ror32 (r32 st rm) sh)
  | .tstLsl rn rm sh =>
      let v := r32 st rn &&& w32 (r32 st rm * 2 ^ (sh % 32))
      { st with
        flagN := decide (2 ^ 31 ≤ v), flagZ := decide (v = 0),
        flagC := false, flagV := false }
  | .tst32 rn rm =>
      let v := r32 st rn &&& r32 st rm
      { st with
        flagN := decide (2 ^ 31 ≤ v), flagZ := decide (v = 0),
        flagC := false, flagV := false }
  | .cmp32i rn imm => addFlags st (r32 st rn) (notW imm) 1
  | .cmp32r rn rm => addFlags st (r32 st rn) (notW (r32 st rm)) 1
  | .cmn32r rn rm => addFlags st (r32 st rn) (r32 st rm) 0
  | .ccmn32i rn imm nzcv c =>
      if condHolds st c then addFlags st (r32 st rn) (w32 imm) 0
      else { st with
        flagN := decide (nzcv / 8 % 2 = 1), flagZ := decide (nzcv / 4 % 2 = 1),
        flagC := decide (nzcv / 2 % 2 = 1), flagV := decide (nzcv % 2 = 1) }
  | .cset rd c => setW st rd (condHolds st c).toNat
  | .csinc rd rn rm c =>
      setW st rd (if condHolds st c then r32 st rn else r32 st rm + 1)
  | .lsl32 rd rn sh => setW st rd (r32 st rn * 2 ^ (sh % 32))
  | .lsr32 rd rn sh => setW st rd (r32 st rn / 2 ^ (sh % 32))
  | .asr32i rd rn sh => setW st rd (asr32 (r32 st rn) (sh % 32))
  | .lsl64 rd rn sh => setX st rd (getR st rn * 2 ^ (sh % 64))
  | .lsr64 rd rn sh => setX st rd (w64 (getR st rn) / 2 ^ (sh % 64))
  | .asrv64 rd rn rm =>
      setX st rd (toU64 (Int.fdiv (toS64 (getR st rn)) (2 ^ (getR st rm % 64))))
  | .sxtw rd rn => setX st rd (sextPat (r32 st rn))
  | .ubfx32 rd rn lsb width => setW st rd (r32 st rn / 2 ^ lsb % 2 ^ width)
  | .ubfiz32 rd rn lsb width => setW st rd (r32 st rn % 2 ^ width * 2 ^ lsb)
  | .udiv32 rd rn rm =>
      setW st rd (if r32 st rm = 0 then 0 else r32 st rn / r32 st rm)
  | .sdiv32 rd rn rm => setW st rd (sdivPat (r32 st rn) (r32 st rm))
  | .ldrbCA rd => setW st rd (st.xerCA % 256)
  | .strbCA rs => { st with xerCA := r32 st rs % 256 }
  | .cbz32 _ _ => st
  | .bcond _ _ => st
  | .br _ => st
  | .lbl _ => st
  | .vmoviSplat32 rd imm8 sh =>
      let lane := w32 (imm8 * 2 ^ sh)
      let v := lane * 2 ^ 32 + lane
      { st with fpLo := Function.update st.fpLo rd v,
                fpHi := Function.update st.fpHi rd v }
  | .vmovi64 rd imm =>
      { st with fpLo := Function.update st.fpLo rd (w64 imm),
                fpHi := Function.update st.fpHi rd (w64 imm) }
  | .vbic rd rn rm =>
      { st with fpLo := Function.update st.fpLo rd (st.fpLo rn &&& notX (st.fpLo rm)),
                fpHi := Function.update st.fpHi rd (st.fpHi rn &&& notX (st.fpHi rm)) }
  | .vorrSplat32 rd imm8 sh =>
      let lane := w32 (imm8 * 2 ^ sh)
      let m := lane * 2 ^ 32 + lane
      { st with fpLo := Function.update st.fpLo rd (st.fpLo rd ||| m),
                fpHi := Function.update st.fpHi rd (st.fpHi rd ||| m) }
  | .vand rd rn rm =>
      { st with fpLo := Function.update st.fpLo rd (st.fpLo rn &&& st.fpLo rm),
                fpHi := Function.update st.fpHi rd (st.fpHi rn &&& st.fpHi rm) }
  | .vadd64v rd rn rm =>
      { st with fpLo := Function.update st.fpLo rd (w64 (st.fpLo rn + st.fpLo rm)),
                fpHi := Function.update st.fpHi rd (w64 (st.fpHi rn + st.fpHi rm)) }
  | .vaddScalarD rd rn rm =>
      { st with fpLo := Function.update st.fpLo rd (w64 (st.fpLo rn + st.fpLo rm)),
                fpHi := Function.update st.fpHi rd 0 }
  | .fparith2V k size rd rn rm =>
      let r := fs.arith2V k size (st.fpLo rn, st.fpHi rn) (st.fpLo rm, st.fpHi rm)
      { st with fpLo := Function.update st.fpLo rd r.1,
                fpHi := Function.update st.fpHi rd r.2 }
  | .fparith2S k single rd rn rm =>
      let r := fs.arith2S k single (st.fpLo rn, st.fpHi rn) (st.fpLo rm, st.fpHi rm)
      { st with fpLo := Function.update st.fpLo rd r.1,
                fpHi := Function.update st.fpHi rd r.2 }
  | .fparith3 k single rd rn rm ra =>
      let r := fs.arith3 k single (st.fpLo rn, st.fpHi rn) (st.fpLo rm, st.fpHi rm)
        (st.fpLo ra, st.fpHi ra)
      { st with fpLo := Function.update st.fpLo rd r.1,
                fpHi := Function.update st.fpHi rd r.2 }
  | .fmovGpFp rd vn single =>
      setX st rd (if single then st.fpLo vn % 2 ^ 32 else st.fpLo vn)
  | .mov64 rd rn => setX st rd (getR st rn)
  | .blCall t => fs.blEff t st

/-- The instructions after the label `l` in a program. -/
def labelSuffix (l : Nat) : List HInst → List HInst
  | [] => []
  | .lbl l' :: rest => if l' = l then rest else labelSuffix l rest
  | _ :: rest => labelSuffix l rest

/-- Run emitted code.  `full` is the whole program (branch targets are
resolved against it); the second list is the remaining instructions.
The translators emit only forward branches, so fuel `full.length + 1`
always suffices. -/
def exec (fs : FPSem) (full : List HInst) : Nat → List HInst → HostState → HostState
  | 0, _, st => st
  | _ + 1, [], st => st
  | fuel + 1, i :: rest, st =>
    match i with
    | .br l => exec fs full fuel (labelSuffix l full) st
    | .bcond c l =>
        if condHolds st c then exec fs full fuel (labelSuffix l full) st
        else exec fs full fuel rest st
    | .cbz32 r l =>
        if r32 st r = 0 then exec fs full fuel (labelSuffix l full) st
        else exec fs full fuel rest st
    | _ => exec fs full fuel rest (step fs i st)

/-- Run a whole program from its start. -/
def runCode (fs : FPSem) (prog : List HInst) (st : HostState) : HostState :=
  exec fs prog (prog.length + 1) prog st

/-- The four states of the carry-flag tracker (spec §3, §4.2):
resident in guest-state memory, resident in the host carry flag,
statically known true, statically known false. -/
inductive CarryFlag
  | inPPCState | inHostCarry | constantTrue | constantFalse
deriving DecidableEq, Repr

/-- Per-instruction translation context: the decoded-instruction
analysis bits and configuration flags the translators consult
(spec §6's static hints threaded in by the external decoder). -/
structure Ctx where
  wantsCA : Bool
  nextWantsCAInFlags : Bool
  nextIsInteger : Bool
  bFPRF : Bool
  wantsFPRF : Bool
  jitIntegerOff : Bool
  jitFloatingPointOff : Bool
  fprIsSingleC : Bool
  fprStoreSafe : Nat → Bool

/-- A decoded guest instruction: the immutable field view of the 32-bit
opcode word (spec §3). -/
structure GInst where
  OPCD : Nat
  SUBOP10 : Nat
  SUBOP5 : Nat
  RD : Nat
  RA : Nat
  RB : Nat
  RS : Nat
  FA : Nat
  FB : Nat
  FC : Nat
  FD : Nat
  CRFD : Nat
  SH : Nat
  MB : Nat
  ME : Nat
  SIMM16 : Int
  UIMM : Nat
  Rc : Bool
  OE : Bool

/-- Translation-time state: the per-guest-register immediate bindings
held by the register cache, the representable-as-single marks of the
float slots, the carry tracker state, the emitted host code, and the
scratch-register / branch-label counters. -/
structure JitS where
  gprImm : Nat → Option Nat
  fprSingle : Nat → Bool
  carry : CarryFlag
  code : List HInst
  nextTmp : Nat
  nextLbl : Nat

/-- Modelled from the spec (§4.1): the external register cache binds
guest GPR `g` to a fixed host register; the embedding uses `32 + g`
(disjoint from WZR = 31, the condition registers and the scratch
pool). -/
def hostR (g : Nat) : Nat := 32 + g

/-- Modelled from the spec (§4.1): the host register holding guest
condition-register field `crf`. -/
def crReg (crf : Nat) : Nat := 80 + crf

/-- Append one host instruction to the emitted code. -/
def emit (i : HInst) (j : JitS) : JitS := { j with code := j.code ++ [i] }

/-- Modelled from the spec (§4.1): `gpr.SetImmediate` records a
compile-time constant for a guest register, emitting no code. -/
def setImmediate (g v : Nat) (j : JitS) : JitS :=
  { j with gprImm := Function.update j.gprImm g (some (w32 v)) }

/-- Modelled from the spec (§4.1): `gpr.BindToRegister` binds a guest
register to its host register for writing; in the spill-free abstract
allocator this emits nothing and drops any immediate binding. -/
def bindToRegister (g : Nat) (j : JitS) : JitS :=
  { j with gprImm := Function.update j.gprImm g none }

/-- Modelled from the spec (§4.1): `gpr.GetReg` hands out a scratch
host register (`100, 101, ...`). -/
def getReg (j : JitS) : Nat × JitS :=
  (100 + j.nextTmp, { j with nextTmp := j.nextTmp + 1 })

/-- `fpr.GetReg`: a scratch vector register (`40, 41, ...`). -/
def getFpReg (j : JitS) : Nat × JitS :=
  (40 + j.nextTmp, { j with nextTmp := j.nextTmp + 1 })

/-- A fresh branch label (the emitter's FixupBranch). -/
def newLbl (j : JitS) : Nat × JitS :=
  (j.nextLbl, { j with nextLbl := j.nextLbl + 1 })

/-- `gpr.IsImm`. -/
def IsImm (j : JitS) (g : Nat) : Bool := (j.gprImm g).isSome

/-- `gpr.GetImm` (meaningful only when `IsImm`). -/
def GetImm (j : JitS) (g : Nat) : Nat := (j.gprImm g).getD 0

/-- `fpr.FixSinglePrecision`: the slot is single-representable after
the rounding the cache performs (spec §3). -/
def FixSinglePrecision (g : Nat) (j : JitS) : JitS :=
  { j with fprSingle := Function.update j.fprSingle g true }

/-- `JitArm64::ComputeRC0(ARM64Reg)` (JitArm64_Integer.cpp:28):
condition register 0 receives the sign-extended result register. -/
def ComputeRC0R (r : Nat) (j : JitS) : JitS := emit (.sxtw (crReg 0) r) j

/-- `JitArm64::ComputeRC0(u64)` (JitArm64_Integer.cpp:34): condition
register 0 receives the folded immediate, sign-extended when its bit 31
is set. -/
def ComputeRC0I (imm : Nat) (j : JitS) : JitS :=
  let j := emit (.movi64 (crReg 0) (w64 imm)) j
  if imm &&& 0x80000000 ≠ 0 then emit (.sxtw (crReg 0) (crReg 0)) j else j

/-- `JitArm64::ComputeCarry(ARM64Reg)` (JitArm64_Integer.cpp:42): the
carry value sits in a register holding 0 or 1; move it into the host
carry flag (CMP reg, 1) when the next instruction wants it there, else
store it to `xer_ca`. -/
def ComputeCarryR (ctx : Ctx) (r : Nat) (j : JitS) : JitS :=
  let j := { j with carry := .inPPCState }
  if !ctx.wantsCA then j
  else if ctx.nextWantsCAInFlags then
    emit (.cmp32i r 1) { j with carry := .inHostCarry }
  else emit (.strbCA r) j

/-- `JitArm64::ComputeCarry(bool)` (JitArm64_Integer.cpp:60): record a
compile-time-known carry in the tracker; no code is emitted. -/
def ComputeCarryB (carry : Bool) (j : JitS) : JitS :=
  { j with carry := if carry then .constantTrue else .constantFalse }

/-- `JitArm64::FlushCarry` (JitArm64_Integer.cpp:79): normalize
whichever carry representation is active into the `xer_ca` byte. -/
def FlushCarry (j : JitS) : JitS :=
  match j.carry with
  | .inPPCState => j
  | .inHostCarry =>
    let (wa, j) := getReg j
    let j := emit (.cset wa .cs) j
    let j := emit (.strbCA wa) j
    { j with carry := .inPPCState }
  | .constantTrue =>
    let (wa, j) := getReg j
    let j := emit (.movi32 wa 1) j
    let j := emit (.strbCA wa) j
    { j with carry := .inPPCState }
  | .constantFalse =>
    let j := emit (.strbCA 31) j
    { j with carry := .inPPCState }

/-- `JitArm64::ComputeCarry()` (JitArm64_Integer.cpp:65): the carry
just landed in the host carry flag; keep it there if the next
instruction is an integer instruction, else flush. -/
def ComputeCarry0 (ctx : Ctx) (j : JitS) : JitS :=
  let j := { j with carry := .inPPCState }
  if !ctx.wantsCA then j
  else
    let j := { j with carry := .inHostCarry }
    if ctx.nextIsInteger then j else FlushCarry j

/-- The CARRY_IF_NEEDED macro (JitArm64_Integer.cpp:19): emit the
flag-setting form of an instruction only when the carry is wanted. -/
def carryIfNeeded (ctx : Ctx) (without withCarry : HInst) : HInst :=
  if ctx.wantsCA then withCarry else without

/-- `JitArm64::cmp` (JitArm64_Integer.cpp:440). -/
def cmp (ctx : Ctx) (inst : GInst) (j : JitS) : Option JitS :=
  if ctx.jitIntegerOff then none else some (
    let a := inst.RA
    let b := inst.RB
    let CR := crReg inst.CRFD
    if IsImm j a && IsImm j b then
      let A : Int := sext32 (GetImm j a)
      let B : Int := sext32 (GetImm j b)
      emit (.movi64 CR (toU64 (A - B))) j
    else if IsImm j b && decide (GetImm j b = 0) then
      emit (.sxtw CR (hostR a)) j
    else
      let (wa, j) := getReg j
      let j := emit (.sxtw wa (hostR a)) j
      let j := emit (.sxtw CR (hostR b)) j
      emit (.sub64 CR wa CR) j)

/-- `JitArm64::cmpi` (JitArm64_Integer.cpp:505). -/
def cmpi (ctx : Ctx) (inst : GInst) (j : JitS) : Option JitS :=
  if ctx.jitIntegerOff then none else some (
    let a := inst.RA
    let B : Int := inst.SIMM16
    let CR := crReg inst.CRFD
    if IsImm j a then
      emit (.movi64 CR (toU64 (sext32 (GetImm j a) - B))) j
    else
      let j := emit (.sxtw CR (hostR a)) j
      if B ≠ 0 then
        let (wa, j) := getReg j
        emit (.subi64 CR CR (toU64 B)) j
      else j)

/-- `JitArm64::boolX` (JitArm64_Integer.cpp:227). -/
def boolX (ctx : Ctx) (inst : GInst) (j : JitS) : Option JitS :=
  if ctx.jitIntegerOff then none else some (
    let a := inst.RA
    let s := inst.RS
    let b := inst.RB
    if IsImm j s && IsImm j b then
      let j :=
        if inst.SUBOP10 = 28 then setImmediate a (GetImm j s &&& GetImm j b) j
        else if inst.SUBOP10 = 476 then setImmediate a (notW (GetImm j s &&& GetImm j b)) j
        else if inst.SUBOP10 = 60 then setImmediate a (GetImm j s &&& notW (GetImm j b)) j
        else if inst.SUBOP10 = 444 then setImmediate a (GetImm j s ||| GetImm j b) j
        else if inst.SUBOP10 = 124 then setImmediate a (notW (GetImm j s ||| GetImm j b)) j
        else if inst.SUBOP10 = 412 then setImmediate a (GetImm j s ||| notW (GetImm j b)) j
        else if inst.SUBOP10 = 316 then setImmediate a (GetImm j s ^^^ GetImm j b) j
        else if inst.SUBOP10 = 284 then setImmediate a (notW (GetImm j s ^^^ GetImm j b)) j
        else j
      if inst.Rc then ComputeRC0I (GetImm j a) j else j
    else if s = b then
      if inst.SUBOP10 = 28 ∨ inst.SUBOP10 = 444 then
        let j := if a ≠ s then emit (.mov32 (hostR a) (hostR s)) (bindToRegister a j) else j
        if inst.Rc then ComputeRC0R (hostR a) j else j
      else if inst.SUBOP10 = 476 ∨ inst.SUBOP10 = 124 then
        let j := bindToRegister a j
        let j := emit (.mvn32 (hostR a) (hostR s)) j
        if inst.Rc then ComputeRC0R (hostR a) j else j
      else if inst.SUBOP10 = 412 ∨ inst.SUBOP10 = 284 then
        let j := setImmediate a 0xFFFFFFFF j
        if inst.Rc then ComputeRC0I (GetImm j a) j else j
      else if inst.SUBOP10 = 60 ∨ inst.SUBOP10 = 316 then
        let j := setImmediate a 0 j
        if inst.Rc then ComputeRC0I (GetImm j a) j else j
      else j
    else
      let j := bindToRegister a j
      let j :=
        if inst.SUBOP10 = 28 then emit (.and32 (hostR a) (hostR s) (hostR b)) j
        else if inst.SUBOP10 = 476 then
          emit (.mvn32 (hostR a) (hostR a)) (emit (.and32 (hostR a) (hostR s) (hostR b)) j)
        else if inst.SUBOP10 = 60 then emit (.bic32 (hostR a) (hostR s) (hostR b)) j
        else if inst.SUBOP10 = 444 then emit (.orr32 (hostR a) (hostR s) (hostR b)) j
        else if inst.SUBOP10 = 124 then
          emit (.mvn32 (hostR a) (hostR a)) (emit (.orr32 (hostR a) (hostR s) (hostR b)) j)
        else if inst.SUBOP10 = 412 then emit (.orn32 (hostR a) (hostR s) (hostR b)) j
        else if inst.SUBOP10 = 316 then emit (.eor32 (hostR a) (hostR s) (hostR b)) j
        else if inst.SUBOP10 = 284 then emit (.eon32 (hostR a) (hostR b) (hostR s)) j
        else j
      if inst.Rc then ComputeRC0R (hostR a) j else j)

/-- `JitArm64::addx` (JitArm64_Integer.cpp:337).  The source reads the
immediate operand's value around the rebinding of `d`; the value is
captured before `bindToRegister` here, as the external cache keeps it
alive across the call. -/
def addx (ctx : Ctx) (inst : GInst) (j : JitS) : Option JitS :=
  if ctx.jitIntegerOff then none
  else if inst.OE then none
  else some (
    let a := inst.RA
    let b := inst.RB
    let d := inst.RD
    if IsImm j a && IsImm j b then
      let i : Int := sext32 (GetImm j a)
      let k : Int := sext32 (GetImm j b)
      let j := setImmediate d (toU32 (i + k)) j
      if inst.Rc then ComputeRC0I (GetImm j d) j else j
    else if IsImm j a || IsImm j b then
      let immReg := if IsImm j a then a else b
      let inReg := if IsImm j a then b else a
      let imm := GetImm j immReg
      let j := bindToRegister d j
      let (wa, j) := getReg j
      let j := emit (.addi32 (hostR d) (hostR inReg) imm) j
      if inst.Rc then ComputeRC0R (hostR d) j else j
    else
      let j := bindToRegister d j
      let j := emit (.add32 (hostR d) (hostR a) (hostR b)) j
      if inst.Rc then ComputeRC0R (hostR d) j else j)

/-- `JitArm64::addic` (JitArm64_Integer.cpp:721). -/
def addic (ctx : Ctx) (inst : GInst) (j : JitS) : Option JitS :=
  if ctx.jitIntegerOff then none else some (
    let a := inst.RA
    let d := inst.RD
    let rc := inst.OPCD = 13
    let imm := toU32 inst.SIMM16
    if IsImm j a then
      let i := GetImm j a
      let j := setImmediate d (i + imm) j
      let j := ComputeCarryB (Helper_Carry i imm) j
      if rc then ComputeRC0I (GetImm j d) j else j
    else
      let j := bindToRegister d j
      let (wa, j) := getReg j
      let j := emit (carryIfNeeded ctx
        (.addi32 (hostR d) (hostR a) imm) (.addsi32 (hostR d) (hostR a) imm)) j
      let j := ComputeCarry0 ctx j
      if rc then ComputeRC0R (hostR d) j else j)

/-- `JitArm64::addzex` (JitArm64_Integer.cpp:850): add-to-zero-extended,
the carry-consuming instruction; one arm per active carry
representation. -/
def addzex (ctx : Ctx) (inst : GInst) (j : JitS) : Option JitS :=
  if ctx.jitIntegerOff then none
  else if inst.OE then none
  else some (
    let a := inst.RA
    let d := inst.RD
    let j :=
      match j.carry with
      | .inPPCState =>
        let j := bindToRegister d j
        let (wa, j) := if d = a then getReg j else (hostR d, j)
        let j := emit (.ldrbCA wa) j
        let j := emit (carryIfNeeded ctx
          (.add32 (hostR d) (hostR a) wa) (.adds32 (hostR d) (hostR a) wa)) j
        ComputeCarry0 ctx j
      | .inHostCarry =>
        let j := bindToRegister d j
        let j := emit (carryIfNeeded ctx
          (.adc32 (hostR d) (hostR a) 31) (.adcs32 (hostR d) (hostR a) 31)) j
        ComputeCarry0 ctx j
      | .constantTrue =>
        let j := bindToRegister d j
        let j := emit (carryIfNeeded ctx
          (.addi32 (hostR d) (hostR a) 1) (.addsi32 (hostR d) (hostR a) 1)) j
        ComputeCarry0 ctx j
      | .constantFalse =>
        let j :=
          if d ≠ a then emit (.mov32 (hostR d) (hostR a)) (bindToRegister d j) else j
        ComputeCarryB false j
    if inst.Rc then ComputeRC0R (hostR d) j else j)

/-- `JitArm64::subfx` (JitArm64_Integer.cpp:905). -/
def subfx (ctx : Ctx) (inst : GInst) (j : JitS) : Option JitS :=
  if ctx.jitIntegerOff then none
  else if inst.OE then none
  else some (
    let a := inst.RA
    let b := inst.RB
    let d := inst.RD
    if a = b then
      let j := setImmediate d 0 j
      if inst.Rc then ComputeRC0I (GetImm j d) j else j
    else if IsImm j a && IsImm j b then
      let i := GetImm j a
      let k := GetImm j b
      let j := setImmediate d (subW k i) j
      if inst.Rc then ComputeRC0I (GetImm j d) j else j
    else
      let j := bindToRegister d j
      let j := emit (.sub32 (hostR d) (hostR b) (hostR a)) j
      if inst.Rc then ComputeRC0R (hostR d) j else j)

/-- `JitArm64::subfex` (JitArm64_Integer.cpp:935). -/
def subfex (ctx : Ctx) (inst : GInst) (j : JitS) : Option JitS :=
  if ctx.jitIntegerOff then none
  else if inst.OE then none
  else some (
    let a := inst.RA
    let b := inst.RB
    let d := inst.RD
    let j :=
      if IsImm j a && IsImm j b then
        let i := GetImm j a
        let k := GetImm j b
        let j := bindToRegister d j
        let j :=
          match j.carry with
          | .inPPCState =>
            let (wa, j) := getReg j
            let j := emit (.ldrbCA wa) j
            emit (.addi32 (hostR d) wa (notW i + k)) j
          | .inHostCarry =>
            let (wa, j) := getReg j
            let j := emit (.movi32 wa (notW i + k)) j
            emit (.adc32 (hostR d) wa 31) j
          | .constantTrue => setImmediate d (notW i + k + 1) j
          | .constantFalse => setImmediate d (notW i + k) j
        let mustCarry := Helper_Carry (notW i) k
        let mightCarry := decide (w32 (notW i + k) = 0xFFFFFFFF)
        if mustCarry then ComputeCarryB true j
        else if mightCarry then j
        else ComputeCarryB false j
      else
        let (wa, j) := if j.carry ≠ CarryFlag.constantTrue then getReg j else (31, j)
        let j := bindToRegister d j
        let mkNotA := fun (j : JitS) =>
          if IsImm j a then emit (.movi32 wa (notW (GetImm j a))) j
          else emit (.mvn32 wa (hostR a)) j
        let hostCarryTail := fun (j : JitS) =>
          let j := mkNotA j
          let j := emit (carryIfNeeded ctx
            (.adc32 (hostR d) wa (hostR b)) (.adcs32 (hostR d) wa (hostR b))) j
          ComputeCarry0 ctx j
        match j.carry with
        | .inPPCState => hostCarryTail (emit (.cmp32i wa 1) (emit (.ldrbCA wa) j))
        | .inHostCarry => hostCarryTail j
        | .constantTrue =>
          let j := emit (carryIfNeeded ctx
            (.sub32 (hostR d) (hostR b) (hostR a)) (.subs32 (hostR d) (hostR b) (hostR a))) j
          ComputeCarry0 ctx j
        | .constantFalse =>
          let j := mkNotA j
          let j := emit (carryIfNeeded ctx
            (.add32 (hostR d) wa (hostR b)) (.adds32 (hostR d) wa (hostR b))) j
          ComputeCarry0 ctx j
    if inst.Rc then ComputeRC0R (hostR d) j else j)

/-- `JitArm64::subfcx` (JitArm64_Integer.cpp:1047). -/
def subfcx (ctx : Ctx) (inst : GInst) (j : JitS) : Option JitS :=
  if ctx.jitIntegerOff then none
  else if inst.OE then none
  else some (
    let a := inst.RA
    let b := inst.RB
    let d := inst.RD
    if IsImm j a && IsImm j b then
      let aImm := GetImm j a
      let bImm := GetImm j b
      let j := setImmediate d (subW bImm aImm) j
      let j := ComputeCarryB (decide (aImm = 0) || Helper_Carry bImm (subW 0 aImm)) j
      if inst.Rc then ComputeRC0I (GetImm j d) j else j
    else
      let j := bindToRegister d j
      let j := emit (carryIfNeeded ctx
        (.sub32 (hostR d) (hostR b) (hostR a)) (.subs32 (hostR d) (hostR b) (hostR a))) j
      let j := ComputeCarry0 ctx j
      if inst.Rc then ComputeRC0R (hostR d) j else j)

/-- `JitArm64::addex` (JitArm64_Integer.cpp:1155): add-extended, carry
in and carry out. -/
def addex (ctx : Ctx) (inst : GInst) (j : JitS) : Option JitS :=
  if ctx.jitIntegerOff then none
  else if inst.OE then none
  else some (
    let a := inst.RA
    let b := inst.RB
    let d := inst.RD
    let j :=
      if IsImm j a && IsImm j b then
        let i := GetImm j a
        let k := GetImm j b
        let j := bindToRegister d j
        let j :=
          match j.carry with
          | .inPPCState =>
            let (wa, j) := getReg j
            let j := emit (.ldrbCA wa) j
            emit (.addi32 (hostR d) wa (i + k)) j
          | .inHostCarry =>
            let (wa, j) := getReg j
            let j := emit (.movi32 wa (i + k)) j
            emit (.adc32 (hostR d) wa 31) j
          | .constantTrue => setImmediate d (i + k + 1) j
          | .constantFalse => setImmediate d (i + k) j
        let mustCarry := Helper_Carry i k
        let mightCarry := decide (w32 (i + k) = 0xFFFFFFFF)
        if mustCarry then ComputeCarryB true j
        else if mightCarry then j
        else ComputeCarryB false j
      else
        let j := bindToRegister d j
        let j :=
          if j.carry = CarryFlag.constantTrue && !(IsImm j a) && !(IsImm j b) then
            emit (.cmp32r 31 31) { j with carry := .inHostCarry }
          else j
        match j.carry with
        | .inPPCState =>
          let (wa, j) := getReg j
          let j := emit (.ldrbCA wa) j
          let j := emit (.cmp32i wa 1) j
          let j := emit (carryIfNeeded ctx
            (.adc32 (hostR d) (hostR a) (hostR b)) (.adcs32 (hostR d) (hostR a) (hostR b))) j
          ComputeCarry0 ctx j
        | .inHostCarry =>
          let j := emit (carryIfNeeded ctx
            (.adc32 (hostR d) (hostR a) (hostR b)) (.adcs32 (hostR d) (hostR a) (hostR b))) j
          ComputeCarry0 ctx j
        | .constantTrue =>
          let aS := if !(IsImm j b) then b else a
          let bS := if !(IsImm j b) then a else b
          let (wa, j) := getReg j
          let imm := w32 (GetImm j bS + 1)
          if imm = 0 then
            let j := if d ≠ aS then emit (.mov32 (hostR d) (hostR aS)) j else j
            ComputeCarryB true j
          else
            let j := emit (carryIfNeeded ctx
              (.addi32 (hostR d) (hostR aS) imm) (.addsi32 (hostR d) (hostR aS) imm)) j
            ComputeCarry0 ctx j
        | .constantFalse =>
          let j := emit (carryIfNeeded ctx
            (.add32 (hostR d) (hostR a) (hostR b)) (.adds32 (hostR d) (hostR a) (hostR b))) j
          ComputeCarry0 ctx j
    if inst.Rc then ComputeRC0R (hostR d) j else j)

/-- `JitArm64::addcx` (JitArm64_Integer.cpp:1279). -/
def addcx (ctx : Ctx) (inst : GInst) (j : JitS) : Option JitS :=
  if ctx.jitIntegerOff then none
  else if inst.OE then none
  else some (
    let a := inst.RA
    let b := inst.RB
    let d := inst.RD
    if IsImm j a && IsImm j b then
      let i := GetImm j a
      let k := GetImm j b
      let j := setImmediate d (i + k) j
      let j := ComputeCarryB (Helper_Carry i k) j
      if inst.Rc then ComputeRC0I (GetImm j d) j else j
    else
      let j := bindToRegister d j
      let j := emit (carryIfNeeded ctx
        (.add32 (hostR d) (hostR a) (hostR b)) (.adds32 (hostR d) (hostR a) (hostR b))) j
      let j := ComputeCarry0 ctx j
      if inst.Rc then ComputeRC0R (hostR d) j else j)

/-- `JitArm64::divwux` (JitArm64_Integer.cpp:1308). -/
def divwux (ctx : Ctx) (inst : GInst) (j : JitS) : Option JitS :=
  if ctx.jitIntegerOff then none
  else if inst.OE then none
  else some (
    let a := inst.RA
    let b := inst.RB
    let d := inst.RD
    if IsImm j a && IsImm j b then
      let i := GetImm j a
      let k := GetImm j b
      let j := setImmediate d (if k = 0 then 0 else i / k) j
      if inst.Rc then ComputeRC0I (GetImm j d) j else j
    else
      let j := bindToRegister d j
      let j := emit (.udiv32 (hostR d) (hostR a) (hostR b)) j
      if inst.Rc then ComputeRC0R (hostR d) j else j)

/-- `JitArm64::divwx` (JitArm64_Integer.cpp:1336). -/
def divwx (ctx : Ctx) (inst : GInst) (j : JitS) : Option JitS :=
  if ctx.jitIntegerOff then none
  else if inst.OE then none
  else some (
    let a := inst.RA
    let b := inst.RB
    let d := inst.RD
    if IsImm j a && IsImm j b then
      let immA : Int := sext32 (GetImm j a)
      let immB : Int := sext32 (GetImm j b)
      let immD : Nat :=
        if immB = 0 ∨ (GetImm j a = 0x80000000 ∧ immB = -1) then
          (if immA < 0 then 0xFFFFFFFF else 0)
        else toU32 (Int.tdiv immA immB)
      let j := setImmediate d immD j
      if inst.Rc then ComputeRC0I immD j else j
    else if IsImm j b && decide (GetImm j b ≠ 0) && decide (GetImm j b ≠ 0xFFFFFFFF) then
      let (wa, j) := getReg j
      let j := emit (.movi32 wa (GetImm j b)) j
      let j := bindToRegister d j
      let j := emit (.sdiv32 (hostR d) (hostR a) wa) j
      if inst.Rc then ComputeRC0R (hostR d) j else j
    else
      let j := FlushCarry j
      let j := bindToRegister d j
      let (wa, j) := getReg j
      let (slow1, j) := newLbl j
      let j := emit (.cbz32 (hostR b) slow1) j
      let j := emit (.movi32 wa 0x80000000) j
      let j := emit (.cmp32r (hostR a) wa) j
      let j := emit (.ccmn32i (hostR b) 1 0 .eq) j
      let (slow2, j) := newLbl j
      let j := emit (.bcond .eq slow2) j
      let j := emit (.sdiv32 (hostR d) (hostR a) (hostR b)) j
      let (done, j) := newLbl j
      let j := emit (.br done) j
      let j := emit (.lbl slow1) j
      let j := emit (.lbl slow2) j
      let j := emit (.asr32i (hostR d) (hostR a) 31) j
      let j := emit (.lbl done) j
      if inst.Rc then ComputeRC0R (hostR d) j else j)

/-- `JitArm64::srawix` (JitArm64_Integer.cpp:647). -/
def srawix (ctx : Ctx) (inst : GInst) (j : JitS) : Option JitS :=
  if ctx.jitIntegerOff then none else some (
    let a := inst.RA
    let s := inst.RS
    let amount := inst.SH
    let inplace := ctx.nextWantsCAInFlags
    if IsImm j s then
      let imm := GetImm j s
      let j := setImmediate a (asr32 imm amount) j
      let j := ComputeCarryB (decide (amount ≠ 0) && decide (sext32 imm < 0) &&
        decide (w32 (imm * 2 ^ (32 - amount)) ≠ 0)) j
      if inst.Rc then ComputeRC0I (GetImm j a) j else j
    else if amount = 0 then
      let j := bindToRegister a j
      let j := emit (.mov32 (hostR a) (hostR s)) j
      let j := ComputeCarryB false j
      if inst.Rc then ComputeRC0R (hostR a) j else j
    else
      let j := bindToRegister a j
      if ctx.wantsCA then
        let (wa, j) := getReg j
        let dest := if inplace then wa else 31
        let j :=
          if a ≠ s then
            let j := emit (.asr32i (hostR a) (hostR s) amount) j
            emit (.andsLsl dest (hostR a) (hostR s) (32 - amount)) j
          else
            let j := emit (.lsl32 wa (hostR s) (32 - amount)) j
            let j := emit (.asr32i (hostR a) (hostR s) amount) j
            emit (.ands32 dest wa (hostR a)) j
        let j :=
          if inplace then ComputeCarry0 ctx (emit (.cmp32i dest 1) j)
          else ComputeCarryR ctx wa (emit (.csinc wa 31 31 .eq) j)
        if inst.Rc then ComputeRC0R (hostR a) j else j
      else
        let j := emit (.asr32i (hostR a) (hostR s) amount) j
        if inst.Rc then ComputeRC0R (hostR a) j else j)

/-- `JitArm64::srawx` (JitArm64_Integer.cpp:1506). -/
def srawx (ctx : Ctx) (inst : GInst) (j : JitS) : Option JitS :=
  if ctx.jitIntegerOff then none else some (
    let a := inst.RA
    let b := inst.RB
    let s := inst.RS
    if IsImm j b && IsImm j s then
      let i := GetImm j s
      let amount := GetImm j b
      let j :=
        if amount &&& 0x20 ≠ 0 then
          let j := setImmediate a (if i &&& 0x80000000 ≠ 0 then 0xFFFFFFFF else 0) j
          ComputeCarryB (i &&& 0x80000000 ≠ 0) j
        else
          let amt := amount &&& 0x1F
          let j := setImmediate a (asr32 i amt) j
          ComputeCarryB (decide (amt ≠ 0) && decide (sext32 i < 0) &&
            decide (w32 (i * 2 ^ (32 - amt)) ≠ 0)) j
      if inst.Rc then ComputeRC0I (GetImm j a) j else j
    else if IsImm j s && decide (GetImm j s = 0) then
      let j := setImmediate a 0 j
      let j := ComputeCarryB false j
      if inst.Rc then ComputeRC0I 0 j else j
    else if IsImm j b then
      let amount := GetImm j b
      let special := amount &&& 0x20 ≠ 0
      let amt := amount &&& 0x1F
      if special then
        let j := bindToRegister a j
        let j :=
          if ctx.wantsCA then
            ComputeCarry0 ctx (emit (.cmn32r (hostR s) (hostR s)) j)
          else j
        let j := emit (.asr32i (hostR a) (hostR s) 31) j
        if inst.Rc then ComputeRC0R (hostR a) j else j
      else if amt = 0 then
        let j :=
          if a ≠ s then emit (.mov32 (hostR a) (hostR s)) (bindToRegister a j) else j
        let j := ComputeCarryB false j
        if inst.Rc then ComputeRC0R (hostR a) j else j
      else if !ctx.wantsCA then
        let j := bindToRegister a j
        let j := emit (.asr32i (hostR a) (hostR s) amt) j
        if inst.Rc then ComputeRC0R (hostR a) j else j
      else
        let j := bindToRegister a j
        let (wa, j) := getReg j
        let j :=
          if a ≠ s then
            let j := emit (.asr32i (hostR a) (hostR s) amt) j
            emit (.tstLsl (hostR a) (hostR s) (32 - amt)) j
          else
            let j := emit (.lsl32 wa (hostR s) (32 - amt)) j
            let j := emit (.asr32i (hostR a) (hostR s) amt) j
            emit (.tst32 wa (hostR a)) j
        let j := emit (.cset wa .ne) j
        let j := ComputeCarryR ctx wa j
        if inst.Rc then ComputeRC0R (hostR a) j else j
    else
      let j := bindToRegister a j
      let (wa, j) := getReg j
      let j := emit (.lsl64 wa (hostR s) 32) j
      let j := emit (.asrv64 wa wa (hostR b)) j
      let j := emit (.lsr64 (hostR a) wa 32) j
      let j :=
        if ctx.wantsCA then
          let j := emit (.tst32 (hostR a) wa) j
          let j := emit (.cset wa .ne) j
          ComputeCarryR ctx wa j
        else j
      if inst.Rc then ComputeRC0R (hostR a) j else j)

/-- `JitArm64::rlwinmx` (JitArm64_Integer.cpp:561). -/
def rlwinmx (ctx : Ctx) (inst : GInst) (j : JitS) : Option JitS :=
  if ctx.jitIntegerOff then none else some (
    let a := inst.RA
    let s := inst.RS
    let mask := MakeRotationMask inst.MB inst.ME
    if IsImm j s then
      let j := setImmediate a (RotateLeft (GetImm j s) inst.SH &&& mask) j
      if inst.Rc then ComputeRC0I (GetImm j a) j else j
    else
      let j := bindToRegister a j
      let j :=
        if inst.SH = 0 ∧ mask = 0xFFFFFFFF then
          if a ≠ s then emit (.mov32 (hostR a) (hostR s)) j else j
        else if inst.SH = 0 then
          emit (.andi32 (hostR a) (hostR s) mask) j
        else if inst.ME = 31 ∧ 31 < inst.SH + inst.MB then
          emit (.ubfx32 (hostR a) (hostR s) (32 - inst.SH) (32 - inst.MB)) j
        else if inst.ME = 31 - inst.SH ∧ 32 > inst.SH + inst.MB then
          emit (.ubfiz32 (hostR a) (hostR s) inst.SH (32 - inst.SH - inst.MB)) j
        else
          let (wa, j) := getReg j
          let j := emit (.movi32 wa mask) j
          emit (.andRor (hostR a) wa (hostR s) (32 - inst.SH)) j
      if inst.Rc then ComputeRC0R (hostR a) j else j)

/-- `JitArm64::Force25BitPrecision` (JitArm64_FloatingPoint.cpp:46):
drop the low 28 mantissa bits of each 64-bit lane, rounding to nearest,
with integer vector operations on the raw bits. -/
def Force25BitPrecision (quad : Bool) (output input temp : Nat) (j : JitS) : JitS :=
  let j := emit (.vmoviSplat32 temp 0x08 24) j
  let j := emit (.vmovi64 output 0xFFFFFFFF00000000) j
  let j := emit (.vbic temp temp output) j
  let j := emit (.vorrSplat32 output 0xF8 24) j
  let j := emit (.vand temp input temp) j
  let j := emit (.vand output input output) j
  if quad then emit (.vadd64v output output temp) j
  else emit (.vaddScalarD output output temp) j

/-- `JitArm64::SetFPRFIfNeeded` (JitArm64_FloatingPoint.cpp:21). -/
def SetFPRFIfNeeded (ctx : Ctx) (single : Bool) (reg : Nat) (isVec : Bool) (j : JitS) : JitS :=
  if !ctx.bFPRF || !ctx.wantsFPRF then j
  else
    let j :=
      if isVec then emit (.fmovGpFp 0 reg single) j
      else if reg ≠ 0 then emit (.mov64 0 reg) j
      else j
    emit (.blCall (if single then .fprfSingle else .fprfDouble)) j

/-- `JitArm64::fp_arith` (JitArm64_FloatingPoint.cpp:66). -/
def fp_arith (ctx : Ctx) (inst : GInst) (j : JitS) : Option JitS :=
  if ctx.jitFloatingPointOff then none
  else if inst.Rc then none
  else some (
    let a := inst.FA
    let b := inst.FB
    let c := inst.FC
    let d := inst.FD
    let op5 := inst.SUBOP5
    let single := inst.OPCD = 59
    let packed := inst.OPCD = 4
    let use_c := 25 ≤ op5
    let use_b := op5 ≠ 25
    let outputs_are_singles := single || packed
    let round_c := use_c && outputs_are_singles && !ctx.fprIsSingleC
    let inputs_are_singles :=
      j.fprSingle a && (!use_b || j.fprSingle b) && (!use_c || j.fprSingle c)
    if packed then
      let size := if inputs_are_singles then 32 else 64
      let (VC, j) :=
        if round_c then
          let (v0q, j) := getFpReg j
          let (v1q, j) := getFpReg j
          let j := Force25BitPrecision true v0q c v1q j
          (v0q, j)
        else (c, j)
      let j :=
        if op5 = 18 then emit (.fparith2V .fdiv size d a b) j
        else if op5 = 20 then emit (.fparith2V .fsub size d a b) j
        else if op5 = 21 then emit (.fparith2V .fadd size d a b) j
        else if op5 = 25 then emit (.fparith2V .fmul size d a VC) j
        else j
      let j := if outputs_are_singles then FixSinglePrecision d j else j
      SetFPRFIfNeeded ctx outputs_are_singles d true j
    else
      let sgl := inputs_are_singles && single
      let (VC, j) :=
        if round_c then
          let (v0q, j) := getFpReg j
          let (v1q, j) := getFpReg j
          let j := Force25BitPrecision false v0q c v1q j
          (v0q, j)
        else (c, j)
      let j :=
        if op5 = 18 then emit (.fparith2S .fdiv sgl d a b) j
        else if op5 = 20 then emit (.fparith2S .fsub sgl d a b) j
        else if op5 = 21 then emit (.fparith2S .fadd sgl d a b) j
        else if op5 = 25 then emit (.fparith2S .fmul sgl d a VC) j
        else if op5 = 28 then emit (.fparith3 .fnmsub sgl d a VC b) j
        else if op5 = 29 then emit (.fparith3 .fmadd sgl d a VC b) j
        else if op5 = 30 then emit (.fparith3 .fmsub sgl d a VC b) j
        else if op5 = 31 then emit (.fparith3 .fnmadd sgl d a VC b) j
        else j
      let j := if outputs_are_singles then FixSinglePrecision d j else j
      SetFPRFIfNeeded ctx outputs_are_singles d true j)

/-! ### Bit-level model of the single-to-double conversion paths

The fast/slow path split of `ConvertSingleToDoubleLower` and
`ConvertSingleToDoublePair` (JitArm64_FloatingPoint.cpp:610-746)
compares per-lane classification code (FABS / FACGT, FCMP, a patterned
byte insertion) against the behavior of the native conversion
instruction and the external bit-exact routine `cstd`.  The two latter
are outside the translated files and are modelled from the spec; the
classification code is translated bit-by-bit. -/

/-- Sign bit of a binary32 pattern. -/
def sign32 (x : Nat) : Nat := w32 x / 2 ^ 31

/-- Exponent field of a binary32 pattern. -/
def expF32 (x : Nat) : Nat := w32 x / 2 ^ 23 % 2 ^ 8

/-- Fraction field of a binary32 pattern. -/
def frac32 (x : Nat) : Nat := w32 x % 2 ^ 23

/-- Is a binary32 pattern a NaN? -/
def isNaN32 (x : Nat) : Bool := decide (expF32 x = 255) && decide (frac32 x ≠ 0)

/-- Is a binary64 pattern a NaN? -/
def isNaN64 (p : Nat) : Bool :=
  decide (w64 p / 2 ^ 52 % 2 ^ 11 = 2047) && decide (w64 p % 2 ^ 52 ≠ 0)

/-- Modelled from the spec (§4.4, glossary "bit-exact conversion"):
the unique bit-exact single→double widening — the binary64 pattern
denoting the same value, with denormals normalized exactly, zeroes and
infinities mapped to their double encodings, and NaN payloads shifted
into place with the quiet bit untouched. -/
def s2dExact (x : Nat) : Nat :=
  let s := sign32 x
  let e := expF32 x
  let f := frac32 x
  if e = 255 then s * 2 ^ 63 + 2047 * 2 ^ 52 + f * 2 ^ 29
  else if e = 0 then
    if f = 0 then s * 2 ^ 63
    else
      let p := Nat.log2 f
      s * 2 ^ 63 + (p + 874) * 2 ^ 52 + (f - 2 ^ p) * 2 ^ (52 - p)
  else s * 2 ^ 63 + (e + 896) * 2 ^ 52 + f * 2 ^ 29

/-- Modelled from the spec (§6): the external bit-exact reference
routine reached with `BL cstd` performs exactly the bit-exact
widening, never flushing and never quieting. -/
def cstdRef (x : Nat) : Nat := s2dExact x

/-- Modelled from the spec (§4.4): the native FCVT single→double host
instruction. It quiets NaNs, and when the host floating-point control
mode flushes denormals (`fz`), it flushes denormal inputs to a signed
zero; on every other input it is the bit-exact widening. -/
def fcvtNative (fz : Bool) (x : Nat) : Nat :=
  if isNaN32 x then s2dExact x ||| 2 ^ 51
  else if fz && decide (expF32 x = 0) then sign32 x * 2 ^ 63
  else s2dExact x

/-- FABS of a binary32 pattern: clear the sign bit. -/
def fabs32 (x : Nat) : Nat := w32 x % 2 ^ 31

/-- Modelled from the spec (§4.4): the host FCMP-against-zero
"greater than" outcome on a non-negative binary32 pattern under flush
mode `fz`: ordered (not NaN) and strictly positive after any input
flushing of denormals. -/
def fcmpGTZero (fz : Bool) (y : Nat) : Bool :=
  !isNaN32 y && decide ((if fz && decide (expF32 y = 0) then 0 else w32 y % 2 ^ 31) ≠ 0)

/-- The per-lane classification check emitted by
`ConvertSingleToDoubleLower` (JitArm64_FloatingPoint.cpp:629): FABS,
FCMP against zero, branch to the fast path on GT. -/
def singleToDoubleFastPath (fz : Bool) (x : Nat) : Bool := fcmpGTZero fz (fabs32 x)

/-- The result lane of `ConvertSingleToDoubleLower`
(JitArm64_FloatingPoint.cpp:610): native FCVT when the classification
check passes, the external bit-exact routine otherwise. -/
def convertSingleToDoubleLowerResult (fz : Bool) (x : Nat) : Nat :=
  if singleToDoubleFastPath fz x then fcvtNative fz x else cstdRef x

/-- One 32-bit lane of the FACGT-against-zero comparison emitted by
`ConvertSingleToDoublePair` (JitArm64_FloatingPoint.cpp:695): all-ones
when the absolute value of the lane compares greater than zero (NaNs
compare false; flushed denormals compare equal to zero). -/
def facgtLane (fz : Bool) (x : Nat) : Nat :=
  if fcmpGTZero fz (fabs32 x) then 0xFFFFFFFF else 0

/-- The byte-7 ← byte-0 insertion (JitArm64_FloatingPoint.cpp:703). -/
def insByte7 (p : Nat) : Nat := w64 p % 2 ^ 56 + w64 p % 2 ^ 8 * 2 ^ 56

/-- The two-lane classification check of `ConvertSingleToDoublePair`
(JitArm64_FloatingPoint.cpp:693-707): the byte insertion turns the
lane comparison pattern into a 64-bit value that is a NaN exactly when
both lanes passed; FCMP's unordered flag then routes to the fast
path. -/
def pairFastPath (fz : Bool) (x0 x1 : Nat) : Bool :=
  isNaN64 (insByte7 (facgtLane fz x1 * 2 ^ 32 + facgtLane fz x0))

/-- The two result lanes of `ConvertSingleToDoublePair`
(JitArm64_FloatingPoint.cpp:672): native FCVTL (per-lane native
conversion) on the fast path, two calls of the bit-exact routine on
the slow path. -/
def convertSingleToDoublePairResult (fz : Bool) (x0 x1 : Nat) : Nat × Nat :=
  if pairFastPath fz x0 x1 then (fcvtNative fz x0, fcvtNative fz x1)
  else (cstdRef x0, cstdRef x1)

/-- The claim's closed formula for the 25-bit truncation:
`(input & ~0xFFFFFFF) + ((input & (1 << 27)) << 1)` on 64-bit lanes. -/
def force25Formula (v : Nat) : Nat :=
  w64 ((w64 v &&& 0xFFFFFFFFF0000000) + (w64 v &&& 0x8000000) * 2)

/-- The spec's reference model (§8) for the 25-bit truncation: mask
away the low 28 bits and round to nearest. -/
def roundTo25Ref (v : Nat) : Nat :=
  w64 ((w64 v / 2 ^ 28 + w64 v / 2 ^ 27 % 2) * 2 ^ 28)

/-! ### Arithmetic helper lemmas -/

theorem land_field (x wd k : Nat) :
    x &&& (2 ^ wd - 1) * 2 ^ k = x / 2 ^ k % 2 ^ wd * 2 ^ k := by
  have h1 : (2 ^ wd - 1) * 2 ^ k = (2 ^ wd - 1) <<< k := (Nat.shiftLeft_eq _ _).symm
  have h2 : x / 2 ^ k % 2 ^ wd * 2 ^ k = ((x >>> k) % 2 ^ wd) <<< k := by
    rw [Nat.shiftLeft_eq, Nat.shiftRight_eq_div_pow]
  rw [h1, h2]
  apply Nat.eq_of_testBit_eq
  intro i
  rw [Nat.testBit_and, Nat.testBit_shiftLeft, Nat.testBit_shiftLeft,
    Nat.testBit_mod_two_pow, Nat.testBit_shiftRight, Nat.testBit_two_pow_sub_one]
  by_cases hki : k ≤ i
  · have hik : k + (i - k) = i := by omega
    rw [hik]
    cases hx : x.testBit i <;> simp [hki]
  · simp [hki, Nat.not_le.mp hki]

theorem xor_ones (k : Nat) : ∀ m, m < 2 ^ k → m ^^^ (2 ^ k - 1) = 2 ^ k - 1 - m := by
  induction k with
  | zero =>
    intro m hm
    have : m = 0 := by omega
    simp [this]
  | succ k ih =>
    intro m hm
    have hps : (2 : Nat) ^ (k + 1) = 2 ^ k * 2 := by ring
    have hp : 1 ≤ (2 : Nat) ^ k := Nat.one_le_two_pow
    have hhalf : (2 ^ (k + 1) - 1) / 2 = 2 ^ k - 1 := by omega
    have hmlt : m / 2 < 2 ^ k := by omega
    have hdiv : (m ^^^ (2 ^ (k + 1) - 1)) / 2 = 2 ^ k - 1 - m / 2 := by
      rw [Nat.xor_div_two, hhalf]
      exact ih (m / 2) hmlt
    have hone : (2 ^ (k + 1) - 1) % 2 = 1 := by omega
    have hmod : (m ^^^ (2 ^ (k + 1) - 1)) % 2 = 1 - m % 2 := by
      rcases Nat.mod_two_eq_zero_or_one m with h | h
      · have hx : (m ^^^ (2 ^ (k + 1) - 1)) % 2 = 1 := by
          rw [Nat.xor_mod_two_eq_one]
          omega
        omega
      · have hx : ¬((m ^^^ (2 ^ (k + 1) - 1)) % 2 = 1) := by
          rw [Nat.xor_mod_two_eq_one]
          simp [h, hone]
        omega
    have e1 := Nat.div_add_mod (m ^^^ (2 ^ (k + 1) - 1)) 2
    have e2 := Nat.div_add_mod m 2
    omega

theorem notW_eq (n : Nat) : notW n = 2 ^ 32 - 1 - w32 n := by
  have h : w32 n < 2 ^ 32 := Nat.mod_lt _ (by norm_num)
  simpa [notW] using xor_ones 32 (w32 n) h

theorem notW_lt (n : Nat) : notW n < 2 ^ 32 := by
  have h : w32 n < 2 ^ 32 := Nat.mod_lt _ (by norm_num)
  rw [notW_eq]
  omega

theorem Helper_Carry_iff (v1 v2 : Nat) :
    Helper_Carry v1 v2 = decide (2 ^ 32 ≤ w32 v1 + w32 v2) := by
  have h1 : w32 v1 < 2 ^ 32 := Nat.mod_lt _ (by norm_num)
  have h2 : w32 v2 < 2 ^ 32 := Nat.mod_lt _ (by norm_num)
  rw [Helper_Carry, notW_eq]
  simp only [decide_eq_decide]
  omega

theorem w32_lt (n : Nat) : w32 n < 2 ^ 32 := Nat.mod_lt _ (by norm_num)

theorem w64_lt (n : Nat) : w64 n < 2 ^ 64 := Nat.mod_lt _ (by norm_num)

theorem sext32_bounds (n : Nat) : -(2 ^ 31) ≤ sext32 n ∧ sext32 n < 2 ^ 31 := by
  have h : n % 2 ^ 32 < 2 ^ 32 := Nat.mod_lt _ (by norm_num)
  unfold sext32
  split <;> constructor <;> omega

theorem toS64_toU64 {i : Int} (h1 : -(2 ^ 63) ≤ i) (h2 : i < 2 ^ 63) :
    toS64 (toU64 i) = i := by
  unfold toS64 toU64
  have hm : 0 ≤ i % 2 ^ 64 := Int.emod_nonneg i (by norm_num)
  have hm2 : i % 2 ^ 64 < 2 ^ 64 := Int.emod_lt_of_pos i (by norm_num)
  have hd := Int.ediv_add_emod i (2 ^ 64)
  have hnn : ((i % 2 ^ 64).toNat : Int) = i % 2 ^ 64 := Int.toNat_of_nonneg hm
  split
  · omega
  · omega

/-! ### Sample inputs used by the witness theorems -/

/-- A host state with all registers, flags and `xer_ca` cleared. -/
def zeroHost : HostState :=
  ⟨fun _ => 0, fun _ => 0, fun _ => 0, false, false, false, false, 0⟩

/-- A fresh translation state: no immediates, carry in guest memory,
nothing emitted. -/
def emptyJit : JitS := ⟨fun _ => none, fun _ => false, .inPPCState, [], 0, 0⟩

/-- A plain translation context: carry wanted, no lookahead merge, all
JIT classes enabled. -/
def baseCtx : Ctx := ⟨true, false, false, false, false, false, false, false, fun _ => false⟩

/-- A decoded instruction skeleton with registers d=3, a=1, b=2, s=4. -/
def baseInst : GInst :=
  ⟨31, 0, 0, 3, 1, 2, 4, 0, 0, 0, 0, 0, 0, 0, 0, 0, 0, false, false⟩

/-- A trivial interpretation of the external floating-point behavior
(the integer-claim theorems hold for every interpretation). -/
def trivFPSem : FPSem := ⟨fun _ _ _ _ => (0, 0), fun _ _ _ _ => (0, 0),
  fun _ _ _ _ _ => (0, 0), fun _ st => st⟩

/-! ### The claims -/

/-- C7: every embedded translator that defers an instruction via the
fallback path (the OE-checking integer translators, the Rc-checking
floating-point arithmetic translator, and the JITDISABLE configuration
check) returns `none` — no host instruction is emitted and the
allocator/flag-tracker state `j` is left untouched; deferral is
all-or-nothing per instruction. -/
theorem C7_fallback_all_or_nothing (ctx : Ctx) (inst : GInst) (j : JitS) :
    (inst.OE = true →
      addx ctx inst j = none ∧ addcx ctx inst j = none ∧
      addex ctx inst j = none ∧ addzex ctx inst j = none ∧
      subfx ctx inst j = none ∧ subfcx ctx inst j = none ∧
      subfex ctx inst j = none ∧ divwux ctx inst j = none ∧
      divwx ctx inst j = none) ∧
    (inst.Rc = true → fp_arith ctx inst j = none) ∧
    (ctx.jitIntegerOff = true →
      cmp ctx inst j = none ∧ cmpi ctx inst j = none ∧
      boolX ctx inst j = none ∧ rlwinmx ctx inst j = none ∧
      srawix ctx inst j = none ∧ srawx ctx inst j = none ∧
      addic ctx inst j = none ∧ addx ctx inst j = none) := by
  refine ⟨fun hOE => ?_, fun hRc => ?_, fun hOff => ?_⟩
  · exact ⟨by simp [addx, hOE], by simp [addcx, hOE], by simp [addex, hOE],
      by simp [addzex, hOE], by simp [subfx, hOE], by simp [subfcx, hOE],
      by simp [subfex, hOE], by simp [divwux, hOE], by simp [divwx, hOE]⟩
  · simp [fp_arith, hRc]
  · exact ⟨by simp [cmp, hOff], by simp [cmpi, hOff], by simp [boolX, hOff],
      by simp [rlwinmx, hOff], by simp [srawix, hOff], by simp [srawx, hOff],
      by simp [addic, hOff], by simp [addx, hOff]⟩

/-- C7 witness: the deferral equations at a concrete OE add, a concrete
Rc floating-point multiply, and a concrete disabled-integer-JIT state. -/
theorem C7_fallback_all_or_nothing_witness :
    addx baseCtx { baseInst with OE := true } emptyJit = none ∧
    fp_arith baseCtx { baseInst with Rc := true } emptyJit = none ∧
    cmp { baseCtx with jitIntegerOff := true } baseInst emptyJit = none :=
  ⟨((C7_fallback_all_or_nothing baseCtx { baseInst with OE := true } emptyJit).1 rfl).1,
    (C7_fallback_all_or_nothing baseCtx { baseInst with Rc := true } emptyJit).2.1 rfl,
    ((C7_fallback_all_or_nothing { baseCtx with jitIntegerOff := true } baseInst
      emptyJit).2.2 rfl).1⟩

/-- C2: for the add-with-carry-in translator `addex`, when the tracked
carry is `ConstantFalse` and the two source registers hold the
immediates 0xFFFFFFFF and 1, translation folds completely: the
destination is recorded as immediate 0, the carry state becomes
`ConstantTrue`, and the emitted-code list is unchanged (no host
instructions). -/
theorem C2_addex_constant_fold (ctx : Ctx) (inst : GInst) (j : JitS)
    (hoff : ctx.jitIntegerOff = false) (hOE : inst.OE = false)
    (ha : j.gprImm inst.RA = some 0xFFFFFFFF) (hb : j.gprImm inst.RB = some 1)
    (hc : j.carry = CarryFlag.constantFalse) (hrc : inst.Rc = false) :
    ∃ j', addex ctx inst j = some j' ∧
      j'.gprImm inst.RD = some 0 ∧
      j'.carry = CarryFlag.constantTrue ∧
      j'.code = j.code := by
  have hHC : Helper_Carry 0xFFFFFFFF 1 = true := by decide
  have hw : w32 (0xFFFFFFFF + 1) = 0 := by decide
  have h : addex ctx inst j = some { j with
      gprImm := Function.update j.gprImm inst.RD (some 0),
      carry := CarryFlag.constantTrue } := by
    simp [addex, hoff, hOE, hrc, IsImm, GetImm, ha, hb, hc, bindToRegister,
      setImmediate, ComputeCarryB, hHC, hw, Function.update_idem]
  exact ⟨_, h, by simp, rfl, rfl⟩

/-- Does a host instruction compute or store the guest carry flag
(write `xer_ca`, materialize the host carry, or set the host flags)? -/
def writesCarry : HInst → Bool
  | .strbCA _ => true
  | .cset _ _ => true
  | .csinc _ _ _ _ => true
  | .adds32 _ _ _ => true
  | .addsi32 _ _ _ => true
  | .adcs32 _ _ _ => true
  | .subs32 _ _ _ => true
  | .cmp32i _ _ => true
  | .cmp32r _ _ => true
  | .cmn32r _ _ => true
  | .ccmn32i _ _ _ _ => true
  | .andsLsl _ _ _ _ => true
  | .ands32 _ _ _ => true
  | .tstLsl _ _ _ => true
  | .tst32 _ _ => true
  | _ => false

/-! Projection lemmas for the state-wrapper functions, used to push
conclusions through the translators' normal forms. -/

@[simp] theorem carry_emit (i : HInst) (j : JitS) : (emit i j).carry = j.carry := rfl

@[simp] theorem code_emit (i : HInst) (j : JitS) : (emit i j).code = j.code ++ [i] := rfl

@[simp] theorem gprImm_emit (i : HInst) (j : JitS) : (emit i j).gprImm = j.gprImm := rfl

@[simp] theorem carry_setImmediate (g v : Nat) (j : JitS) :
    (setImmediate g v j).carry = j.carry := rfl

@[simp] theorem code_setImmediate (g v : Nat) (j : JitS) :
    (setImmediate g v j).code = j.code := rfl

@[simp] theorem gprImm_setImmediate (g v : Nat) (j : JitS) :
    (setImmediate g v j).gprImm = Function.update j.gprImm g (some (w32 v)) := rfl

@[simp] theorem carry_bindToRegister (g : Nat) (j : JitS) :
    (bindToRegister g j).carry = j.carry := rfl

@[simp] theorem code_bindToRegister (g : Nat) (j : JitS) :
    (bindToRegister g j).code = j.code := rfl

@[simp] theorem gprImm_bindToRegister (g : Nat) (j : JitS) :
    (bindToRegister g j).gprImm = Function.update j.gprImm g none := rfl

@[simp] theorem carry_ComputeRC0I (v : Nat) (j : JitS) :
    (ComputeRC0I v j).carry = j.carry := by
  unfold ComputeRC0I
  split <;> rfl

@[simp] theorem code_ComputeRC0I (v : Nat) (j : JitS) :
    (ComputeRC0I v j).code = j.code ++
      (if v &&& 0x80000000 ≠ 0 then
        [HInst.movi64 (crReg 0) (w64 v), HInst.sxtw (crReg 0) (crReg 0)]
      else [HInst.movi64 (crReg 0) (w64 v)]) := by
  unfold ComputeRC0I
  split <;> simp

@[simp] theorem gprImm_ComputeRC0I (v : Nat) (j : JitS) :
    (ComputeRC0I v j).gprImm = j.gprImm := by
  unfold ComputeRC0I
  split <;> rfl

@[simp] theorem carry_ComputeRC0R (r : Nat) (j : JitS) :
    (ComputeRC0R r j).carry = j.carry := rfl

@[simp] theorem code_ComputeRC0R (r : Nat) (j : JitS) :
    (ComputeRC0R r j).code = j.code ++ [HInst.sxtw (crReg 0) r] := rfl

@[simp] theorem gprImm_ComputeRC0R (r : Nat) (j : JitS) :
    (ComputeRC0R r j).gprImm = j.gprImm := rfl

@[simp] theorem carry_ComputeCarryB (b : Bool) (j : JitS) :
    (ComputeCarryB b j).carry =
      (if b then CarryFlag.constantTrue else CarryFlag.constantFalse) := by
  unfold ComputeCarryB
  split <;> rfl

@[simp] theorem code_ComputeCarryB (b : Bool) (j : JitS) :
    (ComputeCarryB b j).code = j.code := rfl

@[simp] theorem gprImm_ComputeCarryB (b : Bool) (j : JitS) :
    (ComputeCarryB b j).gprImm = j.gprImm := rfl

@[simp] theorem getReg_fst (j : JitS) : (getReg j).1 = 100 + j.nextTmp := rfl

@[simp] theorem getReg_code (j : JitS) : (getReg j).2.code = j.code := rfl

@[simp] theorem getReg_carry (j : JitS) : (getReg j).2.carry = j.carry := rfl

@[simp] theorem getReg_gprImm (j : JitS) : (getReg j).2.gprImm = j.gprImm := rfl

@[simp] theorem getReg_nextTmp (j : JitS) : (getReg j).2.nextTmp = j.nextTmp + 1 := rfl

@[simp] theorem getFpReg_fst (j : JitS) : (getFpReg j).1 = 40 + j.nextTmp := rfl

@[simp] theorem getFpReg_code (j : JitS) : (getFpReg j).2.code = j.code := rfl

@[simp] theorem newLbl_fst (j : JitS) : (newLbl j).1 = j.nextLbl := rfl

@[simp] theorem newLbl_code (j : JitS) : (newLbl j).2.code = j.code := rfl

@[simp] theorem newLbl_carry (j : JitS) : (newLbl j).2.carry = j.carry := rfl

@[simp] theorem newLbl_gprImm (j : JitS) : (newLbl j).2.gprImm = j.gprImm := rfl

/-- The translation state of the C3 counterexample: guest r1 holds the
immediate 0xFFFFFFFF, guest r2 the immediate 0, and the incoming carry
lives in guest memory (`InPPCState`). -/
def c3Jit : JitS :=
  { emptyJit with
    gprImm := fun g => if g = 1 then some 0xFFFFFFFF else
      if g = 2 then some 0 else none }

/-- C3 counterexample: for `addex` (an `adde` with both source operands
compile-time immediates 0xFFFFFFFF and 0) with the incoming carry in
guest memory, the carry outcome is NOT recorded as
ConstantTrue/ConstantFalse — the tracker is left at `InPPCState` — and
host code (LDRB of `xer_ca`, then an immediate add) IS emitted, because
the immediate sum is 0xFFFFFFFF and the carry-out therefore equals the
unknown carry-in. -/
theorem C3_carry_fold_counterexample :
    IsImm c3Jit baseInst.RA = true ∧ IsImm c3Jit baseInst.RB = true ∧
    c3Jit.carry = CarryFlag.inPPCState ∧
    (addex baseCtx baseInst c3Jit).map JitS.carry = some CarryFlag.inPPCState ∧
    (addex baseCtx baseInst c3Jit).map JitS.code =
      some [HInst.ldrbCA 100, HInst.addi32 35 100 4294967295] :=
  ⟨rfl, rfl, rfl, rfl, rfl⟩

set_option maxHeartbeats 2000000 in
/-- C3 (amended): for the carry-producing translators with no carry-in
(`addcx`, `subfcx`, `addic`, `srawix`, `srawx`), whenever the source
operands are compile-time immediates the carry outcome is computed at
compile time and recorded as ConstantTrue/ConstantFalse, and none of
the emitted host instructions computes or stores the carry flag.  For
the carry-consuming producers `addex` and `subfex` the same holds,
except when the 32-bit intermediate (`i + j`, resp. `~i + j`) equals
0xFFFFFFFF and the incoming carry is not a compile-time constant: then
the carry-out equals the unknown carry-in, the tracker state is passed
through unchanged, and the emitted host code computes only the
destination, still never the carry flag. -/
theorem C3_amended_carry_folding (ctx : Ctx) (inst : GInst) (j : JitS)
    (va vb vs : Nat) (hva : va < 2 ^ 32) (hvb : vb < 2 ^ 32) (hvs : vs < 2 ^ 32)
    (ha : j.gprImm inst.RA = some va) (hb : j.gprImm inst.RB = some vb)
    (hs : j.gprImm inst.RS = some vs)
    (hoff : ctx.jitIntegerOff = false) (hOE : inst.OE = false) :
    (∃ j', addcx ctx inst j = some j' ∧
      (∃ L, j'.code = j.code ++ L ∧ L.all (fun i => !writesCarry i) = true) ∧
      j'.carry = (if 2 ^ 32 ≤ va + vb then CarryFlag.constantTrue
        else CarryFlag.constantFalse)) ∧
    (∃ j', subfcx ctx inst j = some j' ∧
      (∃ L, j'.code = j.code ++ L ∧ L.all (fun i => !writesCarry i) = true) ∧
      j'.carry = (if va ≤ vb then CarryFlag.constantTrue else CarryFlag.constantFalse)) ∧
    (∃ j', addic ctx inst j = some j' ∧
      (∃ L, j'.code = j.code ++ L ∧ L.all (fun i => !writesCarry i) = true) ∧
      j'.carry = (if 2 ^ 32 ≤ va + toU32 inst.SIMM16 then CarryFlag.constantTrue
        else CarryFlag.constantFalse)) ∧
    (∃ j', srawix ctx inst j = some j' ∧
      (∃ L, j'.code = j.code ++ L ∧ L.all (fun i => !writesCarry i) = true) ∧
      j'.carry ≠ CarryFlag.inPPCState ∧ j'.carry ≠ CarryFlag.inHostCarry) ∧
    (∃ j', srawx ctx inst j = some j' ∧
      (∃ L, j'.code = j.code ++ L ∧ L.all (fun i => !writesCarry i) = true) ∧
      j'.carry ≠ CarryFlag.inPPCState ∧ j'.carry ≠ CarryFlag.inHostCarry) ∧
    (∃ j', addex ctx inst j = some j' ∧
      (∃ L, j'.code = j.code ++ L ∧ L.all (fun i => !writesCarry i) = true) ∧
      (j.carry = CarryFlag.constantFalse →
        j'.carry = (if 2 ^ 32 ≤ va + vb then CarryFlag.constantTrue
          else CarryFlag.constantFalse)) ∧
      (j.carry = CarryFlag.constantTrue →
        j'.carry = (if 2 ^ 32 ≤ va + vb + 1 then CarryFlag.constantTrue
          else CarryFlag.constantFalse)) ∧
      ((j.carry = CarryFlag.inPPCState ∨ j.carry = CarryFlag.inHostCarry) →
        j'.carry = (if 2 ^ 32 ≤ va + vb then CarryFlag.constantTrue
          else if va + vb = 2 ^ 32 - 1 then j.carry else CarryFlag.constantFalse))) ∧
    (∃ j', subfex ctx inst j = some j' ∧
      (∃ L, j'.code = j.code ++ L ∧ L.all (fun i => !writesCarry i) = true) ∧
      (j.carry = CarryFlag.constantFalse →
        j'.carry = (if 2 ^ 32 ≤ notW va + vb then CarryFlag.constantTrue
          else CarryFlag.constantFalse)) ∧
      (j.carry = CarryFlag.constantTrue →
        j'.carry = (if 2 ^ 32 ≤ notW va + vb + 1 then CarryFlag.constantTrue
          else CarryFlag.constantFalse)) ∧
      ((j.carry = CarryFlag.inPPCState ∨ j.carry = CarryFlag.inHostCarry) →
        j'.carry = (if 2 ^ 32 ≤ notW va + vb then CarryFlag.constantTrue
          else if notW va + vb = 2 ^ 32 - 1 then j.carry
          else CarryFlag.constantFalse))) := by
  have hwa : w32 va = va := Nat.mod_eq_of_lt hva
  have hwb : w32 vb = vb := Nat.mod_eq_of_lt hvb
  have hHC : Helper_Carry va vb = decide (2 ^ 32 ≤ va + vb) := by
    rw [Helper_Carry_iff, hwa, hwb]
  have hnw : notW va < 2 ^ 32 := notW_lt va
  have hwn : w32 (notW va) = notW va := Nat.mod_eq_of_lt hnw
  have hHCn : Helper_Carry (notW va) vb = decide (2 ^ 32 ≤ notW va + vb) := by
    rw [Helper_Carry_iff, hwn, hwb]
  refine ⟨?_, ?_, ?_, ?_, ?_, ?_, ?_⟩
  · -- addcx
    simp only [addcx, hoff, hOE, IsImm, ha, hb, GetImm, Option.isSome_some,
      Bool.and_self, Option.getD_some, Bool.false_eq_true, if_false, if_true]
    by_cases hrc : inst.Rc = true <;> simp [hrc, hHC]
    all_goals try refine ⟨?_, ?_⟩
    all_goals try (split <;> simp_all [writesCarry])
    all_goals simp_all
  · -- subfcx
    have hcar : (decide (va = 0) || Helper_Carry vb (subW 0 va)) = decide (va ≤ vb) := by
      by_cases h0 : va = 0
      · simp [h0]
      · have hsub : subW 0 va = 2 ^ 32 - va := by
          unfold subW w32
          rw [Nat.mod_eq_of_lt hva]
          omega
        have hw2 : w32 (2 ^ 32 - va) = 2 ^ 32 - va := Nat.mod_eq_of_lt (by omega)
        have hd0 : decide (va = 0) = false := by simp [h0]
        rw [hsub, Helper_Carry_iff, hwb, hw2, hd0, Bool.false_or]
        simp only [decide_eq_decide]
        omega
    simp only [subfcx, hoff, hOE, IsImm, ha, hb, GetImm, Option.isSome_some,
      Bool.and_self, Option.getD_some, Bool.false_eq_true, if_false, if_true]
    by_cases hrc : inst.Rc = true <;> simp [hrc, hcar]
    all_goals try refine ⟨?_, ?_⟩
    all_goals try (split <;> simp_all [writesCarry])
    all_goals simp_all
  · -- addic
    have hwimm : w32 (toU32 inst.SIMM16) = toU32 inst.SIMM16 := by
      unfold toU32 w32
      have h1 : 0 ≤ inst.SIMM16 % 2 ^ 32 := Int.emod_nonneg _ (by norm_num)
      have h2 : inst.SIMM16 % 2 ^ 32 < 2 ^ 32 := Int.emod_lt_of_pos _ (by norm_num)
      omega
    have hHCi : Helper_Carry va (toU32 inst.SIMM16) =
        decide (2 ^ 32 ≤ va + toU32 inst.SIMM16) := by
      rw [Helper_Carry_iff, hwa, hwimm]
    simp only [addic, hoff, IsImm, ha, GetImm, Option.isSome_some,
      Option.getD_some, Bool.false_eq_true, if_false, if_true]
    by_cases hrc : inst.OPCD = 13 <;> simp [hrc, hHCi]
    all_goals try refine ⟨?_, ?_⟩
    all_goals try (split <;> simp_all [writesCarry])
    all_goals simp_all
  · -- srawix
    simp only [srawix, hoff, IsImm, hs, GetImm, Option.isSome_some,
      Option.getD_some, Bool.false_eq_true, if_false, if_true]
    by_cases hrc : inst.Rc = true <;> simp [hrc]
    all_goals try refine ⟨?_, ?_, ?_⟩
    all_goals try refine ⟨?_, ?_⟩
    all_goals try (split <;> simp_all [writesCarry])
    all_goals simp_all
  · -- srawx
    simp only [srawx, hoff, IsImm, hb, hs, GetImm, Option.isSome_some,
      Bool.and_self, Option.getD_some, Bool.false_eq_true, if_false, if_true]
    by_cases hrc : inst.Rc = true <;> by_cases hsp : vb &&& 0x20 ≠ 0 <;>
      simp [hrc, hsp]
    all_goals try refine ⟨?_, ?_, ?_⟩
    all_goals try refine ⟨?_, ?_⟩
    all_goals first
      | decide
      | exact ⟨[], by simp, rfl⟩
      | (intro x hx
         (try split at hx) <;> fin_cases hx <;> rfl)
      | (refine ⟨_, rfl, ?_⟩
         intro x hx
         (try split at hx) <;> fin_cases hx <;> rfl)
      | simp [writesCarry]
      | omega
      | (split <;> simp_all <;> omega)
      | (split <;> simp_all)
      | simp_all
      | (unfold w32 at *
         omega)
  · -- addex
    have hmight : (decide (w32 (va + vb) = 0xFFFFFFFF)) =
        (decide (va + vb = 2 ^ 32 - 1)) := by
      simp only [decide_eq_decide]
      unfold w32
      constructor <;> intro h <;> omega
    simp only [addex, hoff, hOE, IsImm, ha, hb, GetImm, Option.isSome_some,
      Bool.and_self, Option.getD_some, Bool.false_eq_true, if_false, if_true]
    cases hcy : j.carry <;>
      by_cases hrc : inst.Rc = true <;>
      simp [hrc, hcy, hHC, hmight] <;>
      by_cases hge : 4294967296 ≤ va + vb <;>
      by_cases heq : va + vb = 4294967295 <;>
      try simp [hge, heq]
    all_goals try refine ⟨?_, ?_⟩
    all_goals first
      | decide
      | exact ⟨[], by simp, rfl⟩
      | (intro x hx
         (try split at hx) <;> fin_cases hx <;> rfl)
      | (refine ⟨_, rfl, ?_⟩
         intro x hx
         (try split at hx) <;> fin_cases hx <;> rfl)
      | simp [writesCarry]
      | omega
      | (split <;> simp_all <;> omega)
      | (split <;> simp_all)
      | simp_all
      | (unfold w32 at *
         omega)
  · -- subfex
    have hmight : (decide (w32 (notW va + vb) = 0xFFFFFFFF)) =
        (decide (notW va + vb = 2 ^ 32 - 1)) := by
      simp only [decide_eq_decide]
      unfold w32
      constructor <;> intro h <;> omega
    simp only [subfex, hoff, hOE, IsImm, ha, hb, GetImm, Option.isSome_some,
      Bool.and_self, Option.getD_some, Bool.false_eq_true, if_false, if_true]
    cases hcy : j.carry <;>
      by_cases hrc : inst.Rc = true <;>
      simp [hrc, hcy, hHCn, hmight] <;>
      by_cases hge : 4294967296 ≤ notW va + vb <;>
      by_cases heq : notW va + vb = 4294967295 <;>
      try simp [hge, heq]
    all_goals try refine ⟨?_, ?_⟩
    all_goals first
      | decide
      | exact ⟨[], by simp, rfl⟩
      | (intro x hx
         (try split at hx) <;> fin_cases hx <;> rfl)
      | (refine ⟨_, rfl, ?_⟩
         intro x hx
         (try split at hx) <;> fin_cases hx <;> rfl)
      | simp [writesCarry]
      | omega
      | (split <;> simp_all <;> omega)
      | (split <;> simp_all)
      | simp_all
      | (unfold w32 at *
         omega)
theorem C2_addex_constant_fold_witness :
    ∃ j', addex baseCtx baseInst
        { emptyJit with
          gprImm := fun g => if g = 1 then some 0xFFFFFFFF else
            if g = 2 then some 1 else none,
          carry := .constantFalse } = some j' ∧
      j'.gprImm 3 = some 0 ∧
      j'.carry = CarryFlag.constantTrue ∧
      j'.code = [] :=
  C2_addex_constant_fold baseCtx baseInst _ rfl rfl rfl rfl rfl rfl

theorem toS64_diff (v : Nat) (hv : v < 2 ^ 32) (B : Int)
    (hB1 : -(2 ^ 31) ≤ B) (hB2 : B ≤ 2 ^ 31) :
    toS64 (toU64 (sext32 v - B)) = sext32 v - B := by
  have h := sext32_bounds v
  exact toS64_toU64 (by omega) (by omega)

theorem w64_w64 (n : Nat) : w64 (w64 n) = w64 n := by
  unfold w64
  omega

theorem w64_toU64 (B : Int) : w64 (toU64 B) = toU64 B := by
  unfold w64 toU64
  have e1 : 0 ≤ B % 2 ^ 64 := Int.emod_nonneg _ (by norm_num)
  have e2 : B % 2 ^ 64 < 2 ^ 64 := Int.emod_lt_of_pos _ (by norm_num)
  omega

theorem sub64_sext (v : Nat) (hv : v < 2 ^ 32) (B : Int)
    (hB1 : -(2 ^ 31) ≤ B) (hB2 : B ≤ 2 ^ 31) :
    w64 (sextPat v + (2 ^ 64 - w64 (toU64 B))) = toU64 (sext32 v - B) := by
  have h := sext32_bounds v
  unfold sextPat toU64 w64
  have e1 : 0 ≤ sext32 v % 2 ^ 64 := Int.emod_nonneg _ (by norm_num)
  have e2 : sext32 v % 2 ^ 64 < 2 ^ 64 := Int.emod_lt_of_pos _ (by norm_num)
  have e3 : 0 ≤ B % 2 ^ 64 := Int.emod_nonneg _ (by norm_num)
  have e4 : B % 2 ^ 64 < 2 ^ 64 := Int.emod_lt_of_pos _ (by norm_num)
  have e5 : 0 ≤ (sext32 v - B) % 2 ^ 64 := Int.emod_nonneg _ (by norm_num)
  have e6 : (sext32 v - B) % 2 ^ 64 < 2 ^ 64 := Int.emod_lt_of_pos _ (by norm_num)
  omega

theorem toU64_diff_eq_zero (v : Nat) (hv : v < 2 ^ 32) (B : Int)
    (hB1 : -(2 ^ 31) ≤ B) (hB2 : B ≤ 2 ^ 31) :
    toU64 (sext32 v - B) = 0 ↔ sext32 v = B := by
  have h := sext32_bounds v
  unfold toU64
  have e5 : 0 ≤ (sext32 v - B) % 2 ^ 64 := Int.emod_nonneg _ (by norm_num)
  have e6 : (sext32 v - B) % 2 ^ 64 < 2 ^ 64 := Int.emod_lt_of_pos _ (by norm_num)
  constructor <;> intro hh <;> omega

/-- Straight-line (branch-free) host instructions. -/
def straightLine : HInst → Bool
  | .br _ => false
  | .bcond _ _ => false
  | .cbz32 _ _ => false
  | _ => true

theorem exec_cons_straight (fs : FPSem) (full : List HInst) (fuel : Nat) (i : HInst)
    (rest : List HInst) (st : HostState) (h : straightLine i = true) :
    exec fs full (fuel + 1) (i :: rest) st = exec fs full fuel rest (step fs i st) := by
  cases i <;> simp [straightLine] at h ⊢ <;> rfl

theorem exec_eq_foldl (fs : FPSem) (full : List HInst) :
    ∀ (rest : List HInst) (fuel : Nat) (st : HostState),
      rest.length ≤ fuel → rest.all straightLine = true →
      exec fs full fuel rest st = rest.foldl (fun s i => step fs i s) st := by
  intro rest
  induction rest with
  | nil =>
    intro fuel st hlen hall
    cases fuel <;> rfl
  | cons i rest ih =>
    intro fuel st hlen hall
    cases fuel with
    | zero => simp at hlen
    | succ fuel =>
      simp only [List.all_cons, Bool.and_eq_true] at hall
      rw [exec_cons_straight fs full fuel i rest st hall.1, List.foldl_cons]
      exact ih fuel _ (by simp at hlen; omega) hall.2

theorem runCode_straight (fs : FPSem) (prog : List HInst) (st : HostState)
    (h : prog.all straightLine = true) :
    runCode fs prog st = prog.foldl (fun s i => step fs i s) st :=
  exec_eq_foldl fs prog prog (prog.length + 1) st (by omega) h

theorem sextPat_lt (v : Nat) : sextPat v < 2 ^ 64 := by
  unfold sextPat toU64
  have e1 : 0 ≤ sext32 v % 2 ^ 64 := Int.emod_nonneg _ (by norm_num)
  have e2 : sext32 v % 2 ^ 64 < 2 ^ 64 := Int.emod_lt_of_pos _ (by norm_num)
  omega

/-- C1: the compare translators sign-extend both 32-bit operands to 64
bits and subtract; the sign and zero-ness of the resulting 64-bit
condition-register value encode less-than / equal / greater-than.
Conjuncts: (1) the `cmpi` immediate fold writes the pattern of
`(s64)(s32)value − SIMM`; (2) the `cmp` immediate fold writes
`(s64)(s32)a − (s64)(s32)b`; (3) the `cmpi` register path (SXTW, then
SUBI2R) computes the same pattern when executed on the host; (4) the
`cmp` register path (SXTW, SXTW, SUB) likewise; (5) the pattern's
signed 64-bit value orders exactly as the signed comparison, and in
particular register value 0x80000000 compared against immediate 0
yields a negative value — "less than". -/
theorem C1_cmp_signed_compare (ctx : Ctx) (inst : GInst) (j : JitS) (fs : FPSem)
    (st : HostState) (va vb : Nat) (hva : va < 2 ^ 32) (hvb : vb < 2 ^ 32)
    (hoff : ctx.jitIntegerOff = false)
    (hB1 : -(2 ^ 15) ≤ inst.SIMM16) (hB2 : inst.SIMM16 < 2 ^ 15)
    (ha : j.gprImm inst.RA = some va) (hb : j.gprImm inst.RB = some vb)
    (hRA : inst.RA = 1) (hRB : inst.RB = 2) (hCR : inst.CRFD = 0)
    (hst1 : st.regs 33 = va) (hst2 : st.regs 34 = vb) :
    (∃ j', cmpi ctx inst j = some j' ∧
      j'.code = j.code ++
        [HInst.movi64 (crReg 0) (toU64 (sext32 va - inst.SIMM16))] ∧
      toS64 (toU64 (sext32 va - inst.SIMM16)) = sext32 va - inst.SIMM16) ∧
    (∃ j', cmp ctx inst j = some j' ∧
      j'.code = j.code ++
        [HInst.movi64 (crReg 0) (toU64 (sext32 va - sext32 vb))] ∧
      toS64 (toU64 (sext32 va - sext32 vb)) = sext32 va - sext32 vb) ∧
    (∃ j', cmpi ctx inst emptyJit = some j' ∧
      (runCode fs j'.code st).regs (crReg 0) = toU64 (sext32 va - inst.SIMM16)) ∧
    (∃ j', cmp ctx inst emptyJit = some j' ∧
      (runCode fs j'.code st).regs (crReg 0) = toU64 (sext32 va - sext32 vb)) ∧
    ((toS64 (toU64 (sext32 va - inst.SIMM16)) < 0 ↔ sext32 va < inst.SIMM16) ∧
     (toU64 (sext32 va - inst.SIMM16) = 0 ↔ sext32 va = inst.SIMM16) ∧
     (0 < toS64 (toU64 (sext32 va - inst.SIMM16)) ↔ inst.SIMM16 < sext32 va) ∧
     (va = 0x80000000 → inst.SIMM16 = 0 →
       toS64 (toU64 (sext32 va - inst.SIMM16)) < 0)) := by
  have hsb := sext32_bounds va
  have hsbb := sext32_bounds vb
  have hd1 : toS64 (toU64 (sext32 va - inst.SIMM16)) = sext32 va - inst.SIMM16 :=
    toS64_diff va hva _ (by omega) (by omega)
  have hd2 : toS64 (toU64 (sext32 va - sext32 vb)) = sext32 va - sext32 vb :=
    toS64_diff va hva _ (by omega) (by omega)
  have hw64a : w64 (sextPat va) = sextPat va := Nat.mod_eq_of_lt (sextPat_lt va)
  have hw64b : w64 (sextPat vb) = sextPat vb := Nat.mod_eq_of_lt (sextPat_lt vb)
  have hw64a' : w64 (toU64 (sext32 va)) = toU64 (sext32 va) := hw64a
  have hw64b' : w64 (toU64 (sext32 vb)) = toU64 (sext32 vb) := hw64b
  have hm32a : va % 4294967296 = va := by omega
  have hm32b : vb % 4294967296 = vb := by omega
  refine ⟨?_, ?_, ?_, ?_, ?_⟩
  · simp [cmpi, hoff, IsImm, GetImm, ha, hCR, hd1]
  · simp [cmp, hoff, IsImm, GetImm, ha, hb, hCR, hd2]
  · by_cases hB0 : inst.SIMM16 = 0 <;>
      simp only [cmpi, hoff, Bool.false_eq_true, if_false, IsImm, emptyJit,
        Option.isSome_none, hRA, hCR, hB0, ite_true, ite_false, ne_eq,
        not_true_eq_false, not_false_eq_true, Option.some.injEq,
        exists_eq_left'] <;>
      simp only [code_emit, getReg_code, List.nil_append, List.singleton_append]
    · rw [runCode_straight fs _ st ?hca]
      case hca => rfl
      simp [step, setX, getR, r32, crReg, hostR, Function.update_apply, hst1,
        w32, hm32a, hw64a', hB0]
      exact hw64a'
    · rw [runCode_straight fs _ st ?hcb]
      case hcb => rfl
      simp [step, setX, getR, r32, crReg, hostR, Function.update_apply, hst1,
        w32, hm32a, hw64a']
      rw [hw64a, show (18446744073709551616 : Nat) = 2 ^ 64 by norm_num,
        sub64_sext va hva _ (by omega) (by omega), w64_toU64]
  · simp only [cmp, hoff, Bool.false_eq_true, if_false, IsImm, emptyJit,
      Option.isSome_none, hRA, hRB, hCR, Bool.and_self, Bool.false_and,
      ite_false, ite_true, getReg_fst, Option.some.injEq, exists_eq_left']
    simp only [code_emit, getReg_code, List.nil_append, List.singleton_append,
      List.cons_append]
    rw [runCode_straight fs _ st ?hc2]
    case hc2 => rfl
    simp [step, setX, getR, r32, crReg, hostR, Function.update_apply, hst1, hst2,
      w32, hm32a, hm32b, hw64a', hw64b']
    simp only [w64_w64, show (18446744073709551616 : Nat) = 2 ^ 64 by norm_num]
    rw [show sextPat vb = toU64 (sext32 vb) from rfl, hw64a,
      sub64_sext va hva _ hsbb.1 (le_of_lt hsbb.2)]
  · refine ⟨by rw [hd1]; omega,
      toU64_diff_eq_zero va hva _ (by omega) (by omega),
      by rw [hd1]; omega, fun h1 h2 => ?_⟩
    rw [hd1, h1, h2]
    decide

/-- The translation state of the C1 witness: r1 = 0x80000000, r2 = 7 as
immediates. -/
def c1wJit : JitS :=
  { emptyJit with
    gprImm := fun g => if g = 1 then some 2147483648 else
      if g = 2 then some 7 else none }

/-- The host state of the C1 witness: host register W33 (guest r1) holds
0x80000000 and W34 (guest r2) holds 7. -/
def c1St : HostState :=
  { zeroHost with
    regs := fun r => if r = 33 then 2147483648 else if r = 34 then 7 else 0 }

/-- The decoded instruction of the C1 witness: crfD = 0, a = 1, b = 2,
SIMM = 5. -/
def c1Inst : GInst := { baseInst with SIMM16 := 5 }

/-- C1 witness: `cmpi`/`cmp` of r1 = 0x80000000 (negative as a signed
32-bit value) against 5 and against r2 = 7 produce the sign-extended
64-bit difference in both the folded and the executed paths. -/
theorem C1_cmp_signed_compare_witness :
    (∃ j', cmpi baseCtx c1Inst c1wJit = some j' ∧
      j'.code = c1wJit.code ++
        [HInst.movi64 (crReg 0) (toU64 (sext32 2147483648 - c1Inst.SIMM16))] ∧
      toS64 (toU64 (sext32 2147483648 - c1Inst.SIMM16)) =
        sext32 2147483648 - c1Inst.SIMM16) ∧
    (∃ j', cmp baseCtx c1Inst c1wJit = some j' ∧
      j'.code = c1wJit.code ++
        [HInst.movi64 (crReg 0) (toU64 (sext32 2147483648 - sext32 7))] ∧
      toS64 (toU64 (sext32 2147483648 - sext32 7)) =
        sext32 2147483648 - sext32 7) ∧
    (∃ j', cmpi baseCtx c1Inst emptyJit = some j' ∧
      (runCode trivFPSem j'.code c1St).regs (crReg 0) =
        toU64 (sext32 2147483648 - c1Inst.SIMM16)) ∧
    (∃ j', cmp baseCtx c1Inst emptyJit = some j' ∧
      (runCode trivFPSem j'.code c1St).regs (crReg 0) =
        toU64 (sext32 2147483648 - sext32 7)) ∧
    ((toS64 (toU64 (sext32 2147483648 - c1Inst.SIMM16)) < 0 ↔
        sext32 2147483648 < c1Inst.SIMM16) ∧
     (toU64 (sext32 2147483648 - c1Inst.SIMM16) = 0 ↔
        sext32 2147483648 = c1Inst.SIMM16) ∧
     (0 < toS64 (toU64 (sext32 2147483648 - c1Inst.SIMM16)) ↔
        c1Inst.SIMM16 < sext32 2147483648) ∧
     (2147483648 = 0x80000000 → c1Inst.SIMM16 = 0 →
       toS64 (toU64 (sext32 2147483648 - c1Inst.SIMM16)) < 0)) :=
  C1_cmp_signed_compare baseCtx c1Inst c1wJit trivFPSem c1St 2147483648 7
    (by decide) (by decide) rfl (by decide) (by decide) rfl rfl rfl rfl rfl rfl rfl

set_option maxHeartbeats 2000000 in
/-- **C4.** Carry propagation from a producer into the consumer `addze`
is observationally transparent: whichever of the four tracker
representations carries the incoming carry bit `c` into `addzex`
(the `xer_ca` byte, the host carry flag, or a compile-time constant),
running the emitted host code (with a final `FlushCarry`) from a host
state denoting `c` produces the same guest-visible outcome: the
destination holds `a + c` (mod 2^32), `xer_ca` holds the carry-out of
that 32-bit add, and CR0 holds the sign-extended result. -/
theorem C4_carry_transparency (inst : GInst) (fs : FPSem) (st : HostState)
    (c : Bool) (va : Nat) (hva : va < 2 ^ 32)
    (hRA : inst.RA = 1) (hRD : inst.RD = 3) (hOE : inst.OE = false)
    (hRc : inst.Rc = true)
    (hst : st.regs 33 = va) (hca : st.xerCA = c.toNat) (hfc : st.flagC = c) :
    (∃ j', addzex baseCtx inst { emptyJit with carry := .inPPCState } = some j' ∧
      ((runCode fs (FlushCarry j').code st).regs (hostR inst.RD) =
          w32 (va + c.toNat) ∧
       (runCode fs (FlushCarry j').code st).xerCA =
          (if 2 ^ 32 ≤ va + c.toNat then 1 else 0) ∧
       (runCode fs (FlushCarry j').code st).regs (crReg 0) =
          sextPat (w32 (va + c.toNat)))) ∧
    (∃ j', addzex baseCtx inst { emptyJit with carry := .inHostCarry } = some j' ∧
      ((runCode fs (FlushCarry j').code st).regs (hostR inst.RD) =
          w32 (va + c.toNat) ∧
       (runCode fs (FlushCarry j').code st).xerCA =
          (if 2 ^ 32 ≤ va + c.toNat then 1 else 0) ∧
       (runCode fs (FlushCarry j').code st).regs (crReg 0) =
          sextPat (w32 (va + c.toNat)))) ∧
    (c = true →
      ∃ j', addzex baseCtx inst { emptyJit with carry := .constantTrue } = some j' ∧
      ((runCode fs (FlushCarry j').code st).regs (hostR inst.RD) =
          w32 (va + c.toNat) ∧
       (runCode fs (FlushCarry j').code st).xerCA =
          (if 2 ^ 32 ≤ va + c.toNat then 1 else 0) ∧
       (runCode fs (FlushCarry j').code st).regs (crReg 0) =
          sextPat (w32 (va + c.toNat)))) ∧
    (c = false →
      ∃ j', addzex baseCtx inst { emptyJit with carry := .constantFalse } = some j' ∧
      ((runCode fs (FlushCarry j').code st).regs (hostR inst.RD) =
          w32 (va + c.toNat) ∧
       (runCode fs (FlushCarry j').code st).xerCA =
          (if 2 ^ 32 ≤ va + c.toNat then 1 else 0) ∧
       (runCode fs (FlushCarry j').code st).regs (crReg 0) =
          sextPat (w32 (va + c.toNat)))) := by
  have hm32 : va % 4294967296 = va := by omega
  have hcb : c.toNat % 256 = c.toNat := by cases c <;> rfl
  have hcb3 : c.toNat % 4294967296 = c.toNat := by cases c <;> rfl
  have hw25 : ∀ n : Nat, w64 (sextPat n) = sextPat n :=
    fun n => Nat.mod_eq_of_lt (sextPat_lt n)
  refine ⟨?_, ?_, fun hc => ?_, fun hc => ?_⟩
  · simp only [addzex, hOE, Bool.false_eq_true, if_false, hRD, hRA, hRc,
      baseCtx, emptyJit, bindToRegister, getReg, emit, carryIfNeeded,
      ComputeCarry0, FlushCarry, ComputeCarryB, ComputeRC0R, hostR, crReg,
      eq_self_iff_true, if_true, ite_true, ite_false, ne_eq,
      Option.some.injEq, exists_eq_left']
    rw [runCode_straight fs _ st ?hc41]
    case hc41 => rfl
    refine ⟨?_, ?_, ?_⟩
    · simp [step, setW, setX, getR, r32, addFlags, condHolds,
        Function.update_apply, hst, hca, hfc, w32, hm32, hcb, hcb3]
      try omega
    · by_cases hge : 4294967296 ≤ va + c.toNat <;>
        simp [step, setW, setX, getR, r32, addFlags, condHolds,
          Function.update_apply, hst, hca, hfc, w32, hm32, hcb, hcb3, hge] <;>
        try omega
    · simp [step, setW, setX, getR, r32, addFlags, condHolds,
        Function.update_apply, hst, hca, hfc, w32, hm32, hcb, hcb3, hw25]
      try omega
  · simp only [addzex, hOE, Bool.false_eq_true, if_false, hRD, hRA, hRc,
      baseCtx, emptyJit, bindToRegister, getReg, emit, carryIfNeeded,
      ComputeCarry0, FlushCarry, ComputeCarryB, ComputeRC0R, hostR, crReg,
      eq_self_iff_true, if_true, ite_true, ite_false, ne_eq,
      Option.some.injEq, exists_eq_left']
    rw [runCode_straight fs _ st ?hc42]
    case hc42 => rfl
    refine ⟨?_, ?_, ?_⟩
    · simp [step, setW, setX, getR, r32, addFlags, condHolds,
        Function.update_apply, hst, hca, hfc, w32, hm32, hcb, hcb3]
      try omega
    · by_cases hge : 4294967296 ≤ va + c.toNat <;>
        simp [step, setW, setX, getR, r32, addFlags, condHolds,
          Function.update_apply, hst, hca, hfc, w32, hm32, hcb, hcb3, hge] <;>
        try omega
    · simp [step, setW, setX, getR, r32, addFlags, condHolds,
        Function.update_apply, hst, hca, hfc, w32, hm32, hcb, hcb3, hw25]
      try omega
  · subst hc
    simp only [addzex, hOE, Bool.false_eq_true, if_false, hRD, hRA, hRc,
      baseCtx, emptyJit, bindToRegister, getReg, emit, carryIfNeeded,
      ComputeCarry0, FlushCarry, ComputeCarryB, ComputeRC0R, hostR, crReg,
      eq_self_iff_true, if_true, ite_true, ite_false, ne_eq,
      Option.some.injEq, exists_eq_left']
    rw [runCode_straight fs _ st ?hc43]
    case hc43 => rfl
    refine ⟨?_, ?_, ?_⟩
    · simp [step, setW, setX, getR, r32, addFlags, condHolds,
        Function.update_apply, hst, hca, hfc, w32, hm32, hcb, hcb3]
      try omega
    · by_cases hge : 4294967295 ≤ va <;>
        simp [step, setW, setX, getR, r32, addFlags, condHolds,
          Function.update_apply, hst, hca, hfc, w32, hm32, hcb, hcb3, hge] <;>
        first
          | omega
          | (by_cases h49 : 4294967295 ≤ va <;> simp [h49])
          | rw [if_neg (by omega)]
          | skip
    · simp [step, setW, setX, getR, r32, addFlags, condHolds,
        Function.update_apply, hst, hca, hfc, w32, hm32, hcb, hcb3, hw25]
      try omega
  · subst hc
    simp only [addzex, hOE, Bool.false_eq_true, if_false, hRD, hRA, hRc,
      baseCtx, emptyJit, bindToRegister, getReg, emit, carryIfNeeded,
      ComputeCarry0, FlushCarry, ComputeCarryB, ComputeRC0R, hostR, crReg,
      eq_self_iff_true, if_true, ite_true, ite_false, ne_eq,
      Option.some.injEq, exists_eq_left']
    rw [runCode_straight fs _ st ?hc44]
    case hc44 => rfl
    refine ⟨?_, ?_, ?_⟩
    · simp [step, setW, setX, getR, r32, addFlags, condHolds,
        Function.update_apply, hst, hca, hfc, w32, hm32, hcb, hcb3]
      try omega
    · by_cases hge : 4294967296 ≤ va <;>
        simp [step, setW, setX, getR, r32, addFlags, condHolds,
          Function.update_apply, hst, hca, hfc, w32, hm32, hcb, hcb3, hge] <;>
        first
          | omega
          | (by_cases h49 : 4294967295 ≤ va <;> simp [h49])
          | rw [if_neg (by omega)]
          | skip
    · simp [step, setW, setX, getR, r32, addFlags, condHolds,
        Function.update_apply, hst, hca, hfc, w32, hm32, hcb, hcb3, hw25]
      try omega

/-- The decoded instruction of the C4 witness: `addze. r3, r1`. -/
def c4Inst : GInst := { baseInst with Rc := true }

/-- The host state of the C4 witness: guest r1 = 5 in W33, and the
incoming carry denoted `true` in both the `xer_ca` byte and the host
carry flag. -/
def c4St : HostState :=
  { zeroHost with
    regs := fun r => if r = 33 then 5 else 0
    flagC := true
    xerCA := 1 }

/-- C4 witness: `addze. r3, r1` with r1 = 5 and incoming carry 1, run
from each of the four carry representations, lands r3 = 6, carry-out 0
and CR0 = 6 identically. -/
theorem C4_carry_transparency_witness :
    (∃ j', addzex baseCtx c4Inst { emptyJit with carry := .inPPCState } = some j' ∧
      ((runCode trivFPSem (FlushCarry j').code c4St).regs (hostR c4Inst.RD) =
          w32 (5 + Bool.toNat true) ∧
       (runCode trivFPSem (FlushCarry j').code c4St).xerCA =
          (if 2 ^ 32 ≤ 5 + Bool.toNat true then 1 else 0) ∧
       (runCode trivFPSem (FlushCarry j').code c4St).regs (crReg 0) =
          sextPat (w32 (5 + Bool.toNat true)))) ∧
    (∃ j', addzex baseCtx c4Inst { emptyJit with carry := .inHostCarry } = some j' ∧
      ((runCode trivFPSem (FlushCarry j').code c4St).regs (hostR c4Inst.RD) =
          w32 (5 + Bool.toNat true) ∧
       (runCode trivFPSem (FlushCarry j').code c4St).xerCA =
          (if 2 ^ 32 ≤ 5 + Bool.toNat true then 1 else 0) ∧
       (runCode trivFPSem (FlushCarry j').code c4St).regs (crReg 0) =
          sextPat (w32 (5 + Bool.toNat true)))) ∧
    ((true : Bool) = true →
      ∃ j', addzex baseCtx c4Inst { emptyJit with carry := .constantTrue } = some j' ∧
      ((runCode trivFPSem (FlushCarry j').code c4St).regs (hostR c4Inst.RD) =
          w32 (5 + Bool.toNat true) ∧
       (runCode trivFPSem (FlushCarry j').code c4St).xerCA =
          (if 2 ^ 32 ≤ 5 + Bool.toNat true then 1 else 0) ∧
       (runCode trivFPSem (FlushCarry j').code c4St).regs (crReg 0) =
          sextPat (w32 (5 + Bool.toNat true)))) ∧
    ((true : Bool) = false →
      ∃ j', addzex baseCtx c4Inst { emptyJit with carry := .constantFalse } = some j' ∧
      ((runCode trivFPSem (FlushCarry j').code c4St).regs (hostR c4Inst.RD) =
          w32 (5 + Bool.toNat true) ∧
       (runCode trivFPSem (FlushCarry j').code c4St).xerCA =
          (if 2 ^ 32 ≤ 5 + Bool.toNat true then 1 else 0) ∧
       (runCode trivFPSem (FlushCarry j').code c4St).regs (crReg 0) =
          sextPat (w32 (5 + Bool.toNat true)))) :=
  C4_carry_transparency c4Inst trivFPSem c4St true 5 (by decide)
    rfl rfl rfl rfl rfl rfl rfl

/-- **C10.** When the two source registers of a boolean-logic
instruction coincide (RS = RB), the translator applies the algebraic
identity without reading the runtime value: xor and and-with-complement
set the destination to the compile-time constant 0, or-with-complement
and equivalence to the constant 0xFFFFFFFF, and `and`/`or` emit a plain
register copy; `subf` with RA = RB likewise folds the destination to
the constant 0. -/
theorem C10_same_register_identities (ctx : Ctx) (inst : GInst) (j : JitS)
    (hoff : ctx.jitIntegerOff = false) (hRc : inst.Rc = false)
    (hOE : inst.OE = false)
    (hs : j.gprImm inst.RS = none) (hsb : inst.RS = inst.RB)
    (han : inst.RA ≠ inst.RS) :
    (∃ j', boolX ctx { inst with SUBOP10 := 316 } j = some j' ∧
       j'.gprImm inst.RA = some 0 ∧ j'.code = j.code) ∧
    (∃ j', boolX ctx { inst with SUBOP10 := 60 } j = some j' ∧
       j'.gprImm inst.RA = some 0 ∧ j'.code = j.code) ∧
    (∃ j', boolX ctx { inst with SUBOP10 := 412 } j = some j' ∧
       j'.gprImm inst.RA = some 4294967295 ∧ j'.code = j.code) ∧
    (∃ j', boolX ctx { inst with SUBOP10 := 284 } j = some j' ∧
       j'.gprImm inst.RA = some 4294967295 ∧ j'.code = j.code) ∧
    (∃ j', boolX ctx { inst with SUBOP10 := 28 } j = some j' ∧
       j'.gprImm inst.RA = none ∧
       j'.code = j.code ++ [HInst.mov32 (hostR inst.RA) (hostR inst.RB)]) ∧
    (∃ j', boolX ctx { inst with SUBOP10 := 444 } j = some j' ∧
       j'.gprImm inst.RA = none ∧
       j'.code = j.code ++ [HInst.mov32 (hostR inst.RA) (hostR inst.RB)]) ∧
    (∃ j', subfx ctx { inst with RA := inst.RB } j = some j' ∧
       j'.gprImm inst.RD = some 0 ∧ j'.code = j.code) := by
  have hs2 : j.gprImm inst.RB = none := hsb ▸ hs
  have han2 : ¬inst.RA = inst.RB := hsb ▸ han
  refine ⟨?_, ?_, ?_, ?_, ?_, ?_, ?_⟩ <;>
    simp [boolX, subfx, hoff, hRc, hOE, IsImm, hs2, hsb, han2, setImmediate,
      bindToRegister, emit, ComputeRC0I, ComputeRC0R, w32,
      Function.update_apply]

/-- The decoded instruction of the C10 witness: source registers both
r4, destination r1 (for `subf`, both sources r4 and destination r3). -/
def c10Inst : GInst := { baseInst with RB := 4 }

/-- C10 witness: the same-register identities on concrete registers:
xor/andc fold r1 to 0, orc/eqv to 0xFFFFFFFF, and/or emit exactly one
register move, subf folds r3 to 0. -/
theorem C10_same_register_identities_witness :
    (∃ j', boolX baseCtx { c10Inst with SUBOP10 := 316 } emptyJit = some j' ∧
       j'.gprImm c10Inst.RA = some 0 ∧ j'.code = emptyJit.code) ∧
    (∃ j', boolX baseCtx { c10Inst with SUBOP10 := 60 } emptyJit = some j' ∧
       j'.gprImm c10Inst.RA = some 0 ∧ j'.code = emptyJit.code) ∧
    (∃ j', boolX baseCtx { c10Inst with SUBOP10 := 412 } emptyJit = some j' ∧
       j'.gprImm c10Inst.RA = some 4294967295 ∧ j'.code = emptyJit.code) ∧
    (∃ j', boolX baseCtx { c10Inst with SUBOP10 := 284 } emptyJit = some j' ∧
       j'.gprImm c10Inst.RA = some 4294967295 ∧ j'.code = emptyJit.code) ∧
    (∃ j', boolX baseCtx { c10Inst with SUBOP10 := 28 } emptyJit = some j' ∧
       j'.gprImm c10Inst.RA = none ∧
       j'.code = emptyJit.code ++
         [HInst.mov32 (hostR c10Inst.RA) (hostR c10Inst.RB)]) ∧
    (∃ j', boolX baseCtx { c10Inst with SUBOP10 := 444 } emptyJit = some j' ∧
       j'.gprImm c10Inst.RA = none ∧
       j'.code = emptyJit.code ++
         [HInst.mov32 (hostR c10Inst.RA) (hostR c10Inst.RB)]) ∧
    (∃ j', subfx baseCtx { c10Inst with RA := c10Inst.RB } emptyJit = some j' ∧
       j'.gprImm c10Inst.RD = some 0 ∧ j'.code = emptyJit.code) :=
  C10_same_register_identities baseCtx c10Inst emptyJit rfl rfl rfl rfl rfl
    (by decide)

theorem land_low (x wd : Nat) : x &&& (2 ^ wd - 1) = x % 2 ^ wd := by
  have h := land_field x wd 0
  simpa using h

theorem pow32_lit : (2 : Nat) ^ 32 = 4294967296 := by norm_num

theorem RotateLeft_zero (v : Nat) (hv : v < 2 ^ 32) : RotateLeft v 0 = v := by
  unfold RotateLeft w32
  rw [pow32_lit] at *
  simp
  omega

theorem add_mul_pow_mod (A B m s : Nat) (h : m ≤ s) :
    (A * 2 ^ s + B) % 2 ^ m = B % 2 ^ m := by
  have hs : A * 2 ^ s = A * 2 ^ (s - m) * 2 ^ m := by
    rw [mul_assoc, ← pow_add, Nat.sub_add_cancel h]
  rw [hs, Nat.add_comm, Nat.add_mul_mod_self_right]

theorem mul_pow_add_div (A B s : Nat) (hB : B < 2 ^ s) :
    (A * 2 ^ s + B) / 2 ^ s = A := by
  rw [Nat.add_div_of_dvd_right ⟨A, by ring⟩, Nat.div_eq_of_lt hB,
    Nat.mul_div_assoc A (dvd_refl _), Nat.div_self (by positivity), mul_one,
    Nat.add_zero]

theorem MakeRotationMask_lt (mb me : Nat) (hme : me < 32) :
    MakeRotationMask mb me < 2 ^ 32 := by
  unfold MakeRotationMask
  have h1 : 2 ^ (32 - mb) ≤ 2 ^ 32 := Nat.pow_le_pow_right (by norm_num) (by omega)
  have h2 : 1 ≤ 2 ^ (31 - me) := Nat.one_le_two_pow
  have h3 : (0 : Nat) < 2 ^ 32 := by positivity
  split <;> omega

theorem ror32_eq_RotateLeft (v sh : Nat) (h1 : 1 ≤ sh) (h2 : sh < 32)
    (hv : v < 2 ^ 32) : ror32 v (32 - sh) = RotateLeft v sh := by
  unfold ror32 RotateLeft
  have e1 : (32 - sh) % 32 = 32 - sh := Nat.mod_eq_of_lt (by omega)
  have e2 : sh % 32 = sh := Nat.mod_eq_of_lt (by omega)
  have e3 : 32 - (32 - sh) = sh := by omega
  rw [e1, e2, e3, Nat.add_comm]

set_option maxHeartbeats 2000000 in
/-- **C8.** Every special-cased emission path of `rlwinmx` — full-mask
move, shift-free immediate mask, upper bit-select (UBFX), lower
bit-select (UBFIZ), and generic rotate-and-mask — computes the same
function of the source register value as the immediate-folded
reference `RotateLeft(rs, SH) & MakeRotationMask(MB, ME)`. -/
theorem C8_rlwinmx_paths (ctx : Ctx) (inst : GInst) (fs : FPSem)
    (st : HostState) (v : Nat) (hv : v < 2 ^ 32)
    (hoff : ctx.jitIntegerOff = false) (hRc : inst.Rc = false)
    (hRA : inst.RA = 1) (hRS : inst.RS = 2)
    (hSH : inst.SH < 32) (hMB : inst.MB < 32) (hME : inst.ME < 32)
    (hst : st.regs 34 = v) :
    ∃ j', rlwinmx ctx inst emptyJit = some j' ∧
      (runCode fs j'.code st).regs 33 =
        (RotateLeft v inst.SH &&& MakeRotationMask inst.MB inst.ME) := by
  have hmask : MakeRotationMask inst.MB inst.ME < 2 ^ 32 :=
    MakeRotationMask_lt _ _ hME
  have hmdd : MakeRotationMask inst.MB inst.ME % 4294967296 =
      MakeRotationMask inst.MB inst.ME := by
    rw [← pow32_lit]
    exact Nat.mod_eq_of_lt hmask
  have hm32 : v % 4294967296 = v := by omega
  by_cases hc1 : inst.SH = 0 ∧ MakeRotationMask inst.MB inst.ME = 4294967295
  · obtain ⟨h10, h11⟩ := hc1
    simp [rlwinmx, hoff, IsImm, emptyJit, h10, h11, hRA, hRS, hRc,
      bindToRegister, emit, hostR, getReg, ComputeRC0R]
    rw [runCode_straight fs _ st ?h81]
    case h81 => rfl
    simp [step, setW, getR, r32, w32, Function.update_apply, hst, hm32]
    rw [RotateLeft_zero v hv, show (4294967295 : Nat) = 2 ^ 32 - 1 by norm_num,
      land_low, pow32_lit, hm32]
  · by_cases hc2 : inst.SH = 0
    · have hmne : ¬(MakeRotationMask inst.MB inst.ME = 4294967295) :=
        fun h => hc1 ⟨hc2, h⟩
      simp [rlwinmx, hoff, IsImm, emptyJit, hc2, hmne, hRA, hRS, hRc,
        bindToRegister, emit, hostR, getReg, ComputeRC0R]
      rw [runCode_straight fs _ st ?h82]
      case h82 => rfl
      simp [step, setW, getR, r32, w32, Function.update_apply, hst, hm32, hmdd]
      rw [RotateLeft_zero v hv]
      have hle : v &&& MakeRotationMask inst.MB inst.ME ≤ v := Nat.and_le_left
      omega
    · by_cases hc3 : inst.ME = 31 ∧ 31 < inst.SH + inst.MB
      · obtain ⟨h30, h31⟩ := hc3
        simp [rlwinmx, hoff, IsImm, emptyJit, hc1, hc2, h30, h31, hRA, hRS,
          hRc, bindToRegister, emit, hostR, getReg, ComputeRC0R]
        rw [runCode_straight fs _ st ?h83]
        case h83 => rfl
        simp [step, setW, getR, r32, w32, Function.update_apply, hst, hm32]
        rw [show MakeRotationMask inst.MB 31 = 2 ^ (32 - inst.MB) - 1 by
              unfold MakeRotationMask
              rw [if_pos (by omega)]
              norm_num,
          land_low]
        unfold RotateLeft
        rw [Nat.mod_eq_of_lt hSH, show w32 v = v from by unfold w32; omega,
          add_mul_pow_mod _ _ _ _ (by omega)]
        have hlt : v / 2 ^ (32 - inst.SH) % 2 ^ (32 - inst.MB) < 4294967296 := by
          have h1 : v / 2 ^ (32 - inst.SH) % 2 ^ (32 - inst.MB) ≤ v := by
            calc v / 2 ^ (32 - inst.SH) % 2 ^ (32 - inst.MB)
                ≤ v / 2 ^ (32 - inst.SH) := Nat.mod_le _ _
              _ ≤ v := Nat.div_le_self _ _
          omega
        rw [Nat.mod_eq_of_lt hlt]
      · by_cases hc4 : inst.ME = 31 - inst.SH ∧ 32 > inst.SH + inst.MB
        · have h40 := hc4.1
          have h41 := hc4.2
          have hq3 : ¬(31 - inst.SH = 31 ∧ 31 < inst.SH + inst.MB) := by
            rintro ⟨q1, _⟩
            omega
          simp [rlwinmx, hoff, IsImm, emptyJit, hc1, hc2, hq3, hc4, hRA,
            hRS, hRc, bindToRegister, emit, hostR, getReg, ComputeRC0R]
          rw [runCode_straight fs _ st ?h84]
          case h84 => rfl
          simp [step, setW, getR, r32, w32, Function.update_apply, hst, hm32]
          rw [show MakeRotationMask inst.MB (31 - inst.SH) =
                (2 ^ (32 - inst.MB - inst.SH) - 1) * 2 ^ inst.SH by
              unfold MakeRotationMask
              rw [if_pos (by omega)]
              rw [show 31 - (31 - inst.SH) = inst.SH by omega, Nat.sub_mul,
                one_mul, ← pow_add, show 32 - inst.MB - inst.SH + inst.SH =
                  32 - inst.MB by omega],
            land_field]
          unfold RotateLeft
          rw [Nat.mod_eq_of_lt hSH, show w32 v = v from by unfold w32; omega]
          have hB : v / 2 ^ (32 - inst.SH) < 2 ^ inst.SH := by
            apply Nat.div_lt_of_lt_mul
            calc v < 2 ^ 32 := hv
              _ = 2 ^ (32 - inst.SH) * 2 ^ inst.SH := by
                  rw [← pow_add, show 32 - inst.SH + inst.SH = 32 by omega]
          rw [mul_pow_add_div _ _ _ hB,
            Nat.mod_mod_of_dvd _ (pow_dvd_pow 2 (by omega)),
            show (2 : Nat) ^ (32 - inst.SH - inst.MB) =
              2 ^ (32 - inst.MB - inst.SH) by congr 1; omega]
          have hfin : v % 2 ^ (32 - inst.MB - inst.SH) * 2 ^ inst.SH <
              4294967296 := by
            calc v % 2 ^ (32 - inst.MB - inst.SH) * 2 ^ inst.SH
                < 2 ^ (32 - inst.MB - inst.SH) * 2 ^ inst.SH :=
                  (Nat.mul_lt_mul_right (by positivity)).mpr
                    (Nat.mod_lt _ (by positivity))
              _ = 2 ^ (32 - inst.MB - inst.SH + inst.SH) := by rw [pow_add]
              _ ≤ 2 ^ 32 := Nat.pow_le_pow_right (by norm_num) (by omega)
              _ = 4294967296 := pow32_lit
          rw [Nat.mod_eq_of_lt hfin]
        · simp [rlwinmx, hoff, IsImm, emptyJit, hc1, hc2, hc3, hc4, hRA, hRS,
            hRc, bindToRegister, emit, hostR, getReg, ComputeRC0R]
          rw [runCode_straight fs _ st ?h85]
          case h85 => rfl
          simp [step, setW, getR, r32, w32, Function.update_apply, hst, hm32,
            hmdd]
          rw [ror32_eq_RotateLeft v inst.SH (by omega) hSH hv,
            Nat.land_comm (MakeRotationMask inst.MB inst.ME)]
          have hle : RotateLeft v inst.SH &&& MakeRotationMask inst.MB inst.ME ≤
              MakeRotationMask inst.MB inst.ME := Nat.and_le_right
          omega

/-- The decoded instruction of the C8 witness: `rlwinm r1, r2, 4, 8, 27`
(the lower bit-select / UBFIZ special case). -/
def c8Inst : GInst :=
  { baseInst with RS := 2, SH := 4, MB := 8, ME := 27 }

/-- The host state of the C8 witness: guest r2 = 0x12345678 in W34. -/
def c8St : HostState :=
  { zeroHost with regs := fun r => if r = 34 then 305419896 else 0 }

/-- C8 witness: the UBFIZ special case of `rlwinmx` on r2 = 0x12345678
computes exactly `RotateLeft(0x12345678, 4) & MakeRotationMask(8, 27)`. -/
theorem C8_rlwinmx_paths_witness :
    ∃ j', rlwinmx baseCtx c8Inst emptyJit = some j' ∧
      (runCode trivFPSem j'.code c8St).regs 33 =
        (RotateLeft 305419896 c8Inst.SH &&&
          MakeRotationMask c8Inst.MB c8Inst.ME) :=
  C8_rlwinmx_paths baseCtx c8Inst trivFPSem c8St 305419896 (by decide)
    rfl rfl rfl rfl (by decide) (by decide) (by decide) rfl

theorem toU32_lt (i : Int) : toU32 i < 2 ^ 32 := by
  unfold toU32
  omega

theorem sext32_zero_iff (v : Nat) (hv : v < 2 ^ 32) : sext32 v = 0 ↔ v = 0 := by
  unfold sext32
  rw [Nat.mod_eq_of_lt hv]
  split <;> omega

theorem sext32_negone_iff (v : Nat) (hv : v < 2 ^ 32) :
    sext32 v = -1 ↔ v = 4294967295 := by
  unfold sext32
  rw [Nat.mod_eq_of_lt hv]
  split <;> omega

theorem asr31_cases (v : Nat) (hv : v < 2 ^ 32) :
    asr32 v 31 = if sext32 v < 0 then 4294967295 else 0 := by
  have hs := sext32_bounds v
  unfold asr32
  rw [Int.fdiv_eq_ediv _ (by positivity)]
  by_cases hneg : sext32 v < 0
  · rw [if_pos hneg]
    have h1 : sext32 v / 2 ^ 31 = -1 := by omega
    rw [h1]
    rfl
  · rw [if_neg hneg]
    have h1 : sext32 v / 2 ^ 31 = 0 := by omega
    rw [h1]
    rfl

/-- A translation state with guest r1 and r2 held as immediates. -/
def c9Jit (i k : Nat) : JitS :=
  { emptyJit with
    gprImm := fun g => if g = 1 then some i else if g = 2 then some k else none }

/-- The CBZ/CMP+CCMN/SDIV diamond that `divwx` emits on the register
path (labels 0 and 1 lead to the sign-fill slow case, label 2 joins). -/
def divwDiamond : List HInst :=
  [.cbz32 34 0, .movi32 100 2147483648, .cmp32r 33 100, .ccmn32i 34 1 0 .eq,
   .bcond .eq 1, .sdiv32 35 33 34, .br 2, .lbl 0, .lbl 1, .asr32i 35 33 31,
   .lbl 2]

theorem exec_step_facts (fs : FPSem) (full : List HInst) (fuel fuel' : Nat)
    (i : HInst) (rest : List HInst) (st : HostState) (P : HostState → Prop)
    (hf : fuel = fuel' + 1) (hstraight : straightLine i = true)
    (h : P (step fs i st)) :
    ∃ s1, exec fs full fuel (i :: rest) st = exec fs full fuel' rest s1 ∧
      P s1 := by
  subst hf
  exact ⟨step fs i st, exec_cons_straight fs full fuel' i rest st hstraight, h⟩

theorem exec_cbz_not (fs : FPSem) (full : List HInst) (fuel fuel' r l : Nat)
    (rest : List HInst) (st : HostState) (hf : fuel = fuel' + 1)
    (h : ¬(r32 st r = 0)) :
    exec fs full fuel (.cbz32 r l :: rest) st = exec fs full fuel' rest st := by
  subst hf
  simp [exec, h]

theorem exec_cbz_taken (fs : FPSem) (full : List HInst) (fuel fuel' r l : Nat)
    (rest : List HInst) (st : HostState) (hf : fuel = fuel' + 1)
    (h : r32 st r = 0) :
    exec fs full fuel (.cbz32 r l :: rest) st =
      exec fs full fuel' (labelSuffix l full) st := by
  subst hf
  simp [exec, h]

theorem exec_bcond_not (fs : FPSem) (full : List HInst) (fuel fuel' : Nat)
    (c : Cond) (l : Nat) (rest : List HInst) (st : HostState)
    (hf : fuel = fuel' + 1) (h : condHolds st c = false) :
    exec fs full fuel (.bcond c l :: rest) st = exec fs full fuel' rest st := by
  subst hf
  simp [exec, h]

theorem exec_bcond_taken (fs : FPSem) (full : List HInst) (fuel fuel' : Nat)
    (c : Cond) (l : Nat) (rest : List HInst) (st : HostState)
    (hf : fuel = fuel' + 1) (h : condHolds st c = true) :
    exec fs full fuel (.bcond c l :: rest) st =
      exec fs full fuel' (labelSuffix l full) st := by
  subst hf
  simp [exec, h]

theorem exec_br_step (fs : FPSem) (full : List HInst) (fuel fuel' l : Nat)
    (rest : List HInst) (st : HostState) (hf : fuel = fuel' + 1) :
    exec fs full fuel (.br l :: rest) st =
      exec fs full fuel' (labelSuffix l full) st := by
  subst hf
  simp [exec]

theorem exec_nil (fs : FPSem) (full : List HInst) (fuel : Nat)
    (st : HostState) : exec fs full fuel [] st = st := by
  cases fuel <;> simp [exec]

set_option maxHeartbeats 4000000 in
/-- The register-path diamond of `divwx` computes, for every pair of
runtime operand values, exactly the special-case-aware reference
quotient. -/
theorem divwDiamond_eval (fs : FPSem) (st : HostState) (va vb : Nat)
    (hva : va < 2 ^ 32) (hvb : vb < 2 ^ 32)
    (hst1 : st.regs 33 = va) (hst2 : st.regs 34 = vb) :
    (runCode fs divwDiamond st).regs 35 =
      (if vb = 0 ∨ (va = 2147483648 ∧ vb = 4294967295) then
        (if sext32 va < 0 then 4294967295 else 0)
      else toU32 (Int.tdiv (sext32 va) (sext32 vb))) := by
  have hm32a : va % 4294967296 = va := by omega
  have hm32b : vb % 4294967296 = vb := by omega
  have hasr : w32 (asr32 va 31) = if sext32 va < 0 then 4294967295 else 0 := by
    rw [asr31_cases va hva]
    unfold w32
    split <;> rfl
  rw [show runCode fs divwDiamond st =
    exec fs divwDiamond 12 ([HInst.cbz32 34 0,
        HInst.movi32 100 2147483648,
        HInst.cmp32r 33 100,
        HInst.ccmn32i 34 1 0 Cond.eq,
        HInst.bcond Cond.eq 1,
        HInst.sdiv32 35 33 34,
        HInst.br 2,
        HInst.lbl 0,
        HInst.lbl 1,
        HInst.asr32i 35 33 31,
        HInst.lbl 2]) st from rfl]
  by_cases hvb0 : vb = 0
  · rw [exec_cbz_taken fs divwDiamond 12 11 34 0 _ st rfl
      (by simp [r32, getR, w32, hst2, hvb0])]
    rw [show labelSuffix 0 divwDiamond =
      [HInst.lbl 1, HInst.asr32i 35 33 31, HInst.lbl 2] from rfl]
    obtain ⟨s1, he1, h1⟩ := exec_step_facts fs divwDiamond 11 10 (.lbl 1)
      [HInst.asr32i 35 33 31, HInst.lbl 2] st
      (fun s => s.regs 33 = va) rfl rfl (by simp [step, hst1])
    rw [he1]
    obtain ⟨s2, he2, h2⟩ := exec_step_facts fs divwDiamond 10 9
      (.asr32i 35 33 31) [HInst.lbl 2] s1
      (fun s => s.regs 35 = w32 (asr32 va 31)) rfl rfl
      (by simp [step, setW, r32, getR, w32, h1, hm32a])
    rw [he2]
    obtain ⟨s3, he3, h3⟩ := exec_step_facts fs divwDiamond 9 8 (.lbl 2) [] s2
      (fun s => s.regs 35 = w32 (asr32 va 31)) rfl rfl (by simp [step, h2])
    rw [he3, exec_nil, h3, hasr, if_pos (Or.inl hvb0)]
  · rw [exec_cbz_not fs divwDiamond 12 11 34 0
      ([HInst.movi32 100 2147483648,
        HInst.cmp32r 33 100,
        HInst.ccmn32i 34 1 0 Cond.eq,
        HInst.bcond Cond.eq 1,
        HInst.sdiv32 35 33 34,
        HInst.br 2,
        HInst.lbl 0,
        HInst.lbl 1,
        HInst.asr32i 35 33 31,
        HInst.lbl 2]) st rfl
      (by simp [r32, getR, w32, hst2, hm32b, hvb0])]
    obtain ⟨s1, he1, h1a, h1b, h1c⟩ := exec_step_facts fs divwDiamond 11 10
      (.movi32 100 2147483648)
      ([HInst.cmp32r 33 100,
        HInst.ccmn32i 34 1 0 Cond.eq,
        HInst.bcond Cond.eq 1,
        HInst.sdiv32 35 33 34,
        HInst.br 2,
        HInst.lbl 0,
        HInst.lbl 1,
        HInst.asr32i 35 33 31,
        HInst.lbl 2]) st
      (fun s => s.regs 33 = va ∧ s.regs 34 = vb ∧ s.regs 100 = 2147483648)
      rfl rfl
      (by
        refine ⟨?_, ?_, ?_⟩ <;>
          simp [step, setW, w32, Function.update_apply, hst1, hst2])
    rw [he1]
    by_cases hva8 : va = 2147483648
    · obtain ⟨s2, he2, h2a, h2b, h2c⟩ := exec_step_facts fs divwDiamond 10 9
        (.cmp32r 33 100)
        ([HInst.ccmn32i 34 1 0 Cond.eq,
        HInst.bcond Cond.eq 1,
        HInst.sdiv32 35 33 34,
        HInst.br 2,
        HInst.lbl 0,
        HInst.lbl 1,
        HInst.asr32i 35 33 31,
        HInst.lbl 2]) s1
        (fun s => s.regs 33 = va ∧ s.regs 34 = vb ∧ s.flagZ = true) rfl rfl
        (by
          refine ⟨by simp [step, addFlags, h1a], by simp [step, addFlags, h1b],
            ?_⟩
          simp [step, addFlags, r32, getR, w32, notW, h1a, h1c, hva8])
      rw [he2]
      by_cases hvbf : vb = 4294967295
      · obtain ⟨s3, he3, h3a, h3b⟩ := exec_step_facts fs divwDiamond 9 8
          (.ccmn32i 34 1 0 .eq)
          ([HInst.bcond Cond.eq 1,
        HInst.sdiv32 35 33 34,
        HInst.br 2,
        HInst.lbl 0,
        HInst.lbl 1,
        HInst.asr32i 35 33 31,
        HInst.lbl 2]) s2
          (fun s => s.regs 33 = va ∧ s.flagZ = true) rfl rfl
          (by
            refine ⟨?_, ?_⟩ <;>
              simp [step, addFlags, condHolds, r32, getR, w32, h2a, h2b, h2c,
                hvbf])
        rw [he3]
        rw [exec_bcond_taken fs divwDiamond 8 7 .eq 1
          ([HInst.sdiv32 35 33 34,
        HInst.br 2,
        HInst.lbl 0,
        HInst.lbl 1,
        HInst.asr32i 35 33 31,
        HInst.lbl 2]) s3 rfl
          (by simp [condHolds, h3b])]
        rw [show labelSuffix 1 divwDiamond =
          [HInst.asr32i 35 33 31, HInst.lbl 2] from rfl]
        obtain ⟨s4, he4, h4⟩ := exec_step_facts fs divwDiamond 7 6
          (.asr32i 35 33 31) [HInst.lbl 2] s3
          (fun s => s.regs 35 = w32 (asr32 va 31)) rfl rfl
          (by simp [step, setW, r32, getR, w32, h3a, hm32a])
        rw [he4]
        obtain ⟨s5, he5, h5⟩ := exec_step_facts fs divwDiamond 6 5 (.lbl 2) []
          s4 (fun s => s.regs 35 = w32 (asr32 va 31)) rfl rfl
          (by simp [step, h4])
        rw [he5, exec_nil, h5, hasr, if_pos (Or.inr ⟨hva8, hvbf⟩)]
      · obtain ⟨s3, he3, h3a, h3b, h3c⟩ := exec_step_facts fs divwDiamond 9 8
          (.ccmn32i 34 1 0 .eq)
          ([HInst.bcond Cond.eq 1,
        HInst.sdiv32 35 33 34,
        HInst.br 2,
        HInst.lbl 0,
        HInst.lbl 1,
        HInst.asr32i 35 33 31,
        HInst.lbl 2]) s2
          (fun s => s.regs 33 = va ∧ s.regs 34 = vb ∧ s.flagZ = false) rfl rfl
          (by
            have hne1 : ¬((vb + 1) % 4294967296 = 0) := by omega
            refine ⟨?_, ?_, ?_⟩ <;>
              simp [step, addFlags, condHolds, r32, getR, w32, h2a, h2b, h2c,
                hm32b, hne1])
        rw [he3]
        rw [exec_bcond_not fs divwDiamond 8 7 .eq 1
          ([HInst.sdiv32 35 33 34,
        HInst.br 2,
        HInst.lbl 0,
        HInst.lbl 1,
        HInst.asr32i 35 33 31,
        HInst.lbl 2]) s3 rfl
          (by simp [condHolds, h3c])]
        obtain ⟨s4, he4, h4⟩ := exec_step_facts fs divwDiamond 7 6
          (.sdiv32 35 33 34)
          ([HInst.br 2,
        HInst.lbl 0,
        HInst.lbl 1,
        HInst.asr32i 35 33 31,
        HInst.lbl 2]) s3
          (fun s => s.regs 35 = toU32 (Int.tdiv (sext32 va) (sext32 vb)))
          rfl rfl
          (by
            have ht := toU32_lt (Int.tdiv (sext32 va) (sext32 vb))
            simp [step, setW, sdivPat, r32, getR, w32, h3a, h3b, hm32a, hm32b,
              hvb0, Function.update_apply]
            omega)
        rw [he4]
        rw [exec_br_step fs divwDiamond 6 5 2
          ([HInst.lbl 0,
        HInst.lbl 1,
        HInst.asr32i 35 33 31,
        HInst.lbl 2]) s4 rfl]
        rw [show labelSuffix 2 divwDiamond = [] from rfl, exec_nil, h4]
        rw [if_neg (by
          rintro (h | ⟨_, h⟩)
          · exact hvb0 h
          · exact hvbf h)]
    · obtain ⟨s2, he2, h2a, h2b, h2c⟩ := exec_step_facts fs divwDiamond 10 9
        (.cmp32r 33 100)
        ([HInst.ccmn32i 34 1 0 Cond.eq,
        HInst.bcond Cond.eq 1,
        HInst.sdiv32 35 33 34,
        HInst.br 2,
        HInst.lbl 0,
        HInst.lbl 1,
        HInst.asr32i 35 33 31,
        HInst.lbl 2]) s1
        (fun s => s.regs 33 = va ∧ s.regs 34 = vb ∧ s.flagZ = false) rfl rfl
        (by
          have hne2 : ¬((va + 2147483647 + 1) % 4294967296 = 0) := by omega
          refine ⟨by simp [step, addFlags, h1a], by simp [step, addFlags, h1b],
            ?_⟩
          simp [step, addFlags, r32, getR, w32, notW, h1a, h1c, hm32a, hne2])
      rw [he2]
      obtain ⟨s3, he3, h3a, h3b, h3c⟩ := exec_step_facts fs divwDiamond 9 8
        (.ccmn32i 34 1 0 .eq)
        ([HInst.bcond Cond.eq 1,
        HInst.sdiv32 35 33 34,
        HInst.br 2,
        HInst.lbl 0,
        HInst.lbl 1,
        HInst.asr32i 35 33 31,
        HInst.lbl 2]) s2
        (fun s => s.regs 33 = va ∧ s.regs 34 = vb ∧ s.flagZ = false) rfl rfl
        (by
          refine ⟨?_, ?_, ?_⟩ <;>
            simp [step, addFlags, condHolds, r32, getR, w32, h2a, h2b, h2c])
      rw [he3]
      rw [exec_bcond_not fs divwDiamond 8 7 .eq 1
        ([HInst.sdiv32 35 33 34,
        HInst.br 2,
        HInst.lbl 0,
        HInst.lbl 1,
        HInst.asr32i 35 33 31,
        HInst.lbl 2]) s3 rfl
        (by simp [condHolds, h3c])]
      obtain ⟨s4, he4, h4⟩ := exec_step_facts fs divwDiamond 7 6
        (.sdiv32 35 33 34)
        ([HInst.br 2,
        HInst.lbl 0,
        HInst.lbl 1,
        HInst.asr32i 35 33 31,
        HInst.lbl 2]) s3
        (fun s => s.regs 35 = toU32 (Int.tdiv (sext32 va) (sext32 vb)))
        rfl rfl
        (by
          have ht := toU32_lt (Int.tdiv (sext32 va) (sext32 vb))
          simp [step, setW, sdivPat, r32, getR, w32, h3a, h3b, hm32a, hm32b,
            hvb0, Function.update_apply]
          omega)
      rw [he4]
      rw [exec_br_step fs divwDiamond 6 5 2
        ([HInst.lbl 0,
        HInst.lbl 1,
        HInst.asr32i 35 33 31,
        HInst.lbl 2]) s4 rfl]
      rw [show labelSuffix 2 divwDiamond = [] from rfl, exec_nil, h4]
      rw [if_neg (by
        rintro (h | ⟨h, _⟩)
        · exact hvb0 h
        · exact hva8 h)]

set_option maxHeartbeats 4000000 in
/-- **C9.** Division never traps and is total: with both operands
immediate, `divwu` folds a zero divisor to quotient 0, and `divw` folds
a zero divisor or the overflow case 0x80000000 / -1 to 0xFFFFFFFF for a
negative dividend and 0 otherwise; and the emitted register path of
`divw` (a CBZ/CMP+CCMN diamond guarding the SDIV) reproduces exactly
the immediate-folded reference for every pair of runtime values. -/
theorem C9_division_totality (ctx : Ctx) (inst : GInst) (fs : FPSem)
    (st : HostState) (va vb : Nat) (hva : va < 2 ^ 32) (hvb : vb < 2 ^ 32)
    (hoff : ctx.jitIntegerOff = false) (hOE : inst.OE = false)
    (hRc : inst.Rc = false) (hRA : inst.RA = 1) (hRB : inst.RB = 2)
    (hRD : inst.RD = 3) (hst1 : st.regs 33 = va) (hst2 : st.regs 34 = vb) :
    (∀ i, i < 2 ^ 32 → ∃ j', divwux ctx inst (c9Jit i 0) = some j' ∧
        j'.gprImm 3 = some 0) ∧
    (∀ i, i < 2 ^ 32 → ∃ j', divwx ctx inst (c9Jit i 0) = some j' ∧
        j'.gprImm 3 = some (if sext32 i < 0 then 4294967295 else 0)) ∧
    (∃ j', divwx ctx inst (c9Jit 2147483648 4294967295) = some j' ∧
        j'.gprImm 3 = some 4294967295) ∧
    (∃ j', divwx ctx inst emptyJit = some j' ∧
      (runCode fs j'.code st).regs 35 =
        (if sext32 vb = 0 ∨ (va = 2147483648 ∧ sext32 vb = -1) then
          (if sext32 va < 0 then 4294967295 else 0)
        else toU32 (Int.tdiv (sext32 va) (sext32 vb)))) := by
  have hm32a : va % 4294967296 = va := by omega
  have hm32b : vb % 4294967296 = vb := by omega
  refine ⟨?_, ?_, ?_, ?_⟩
  · intro i hi
    simp [divwux, hoff, hOE, hRc, hRA, hRB, hRD, IsImm, GetImm, c9Jit,
      emptyJit, setImmediate, w32, Function.update_apply]
  · intro i hi
    simp [divwx, hoff, hOE, hRc, hRA, hRB, hRD, IsImm, GetImm, c9Jit,
      emptyJit, setImmediate, sext32, Function.update_apply]
    split <;> simp [w32]
    all_goals split <;> omega
  · simp [divwx, hoff, hOE, hRc, hRA, hRB, hRD, IsImm, GetImm, c9Jit,
      emptyJit, setImmediate, sext32, w32, Function.update_apply]
  · simp only [divwx, hoff, hOE, hRc, hRA, hRB, hRD, Bool.false_eq_true,
      if_false, IsImm, emptyJit, Option.isSome_none, Bool.false_and,
      Bool.and_self, ite_false, FlushCarry, bindToRegister, getReg, newLbl,
      emit, hostR, Option.some.injEq, exists_eq_left']
    simp only [List.nil_append, List.cons_append, List.append_nil]
    rw [show [HInst.cbz32 34 0, HInst.movi32 100 2147483648,
        HInst.cmp32r 33 100, HInst.ccmn32i 34 1 0 Cond.eq,
        HInst.bcond Cond.eq 1, HInst.sdiv32 35 33 34, HInst.br 2,
        HInst.lbl 0, HInst.lbl 1, HInst.asr32i 35 33 31, HInst.lbl 2] =
      divwDiamond from rfl]
    rw [divwDiamond_eval fs st va vb hva hvb hst1 hst2]
    simp only [sext32_zero_iff vb hvb, sext32_negone_iff vb hvb]

/-- The host state of the C9 witness: guest r1 = 7 in W33 and a zero
divisor r2 = 0 in W34. -/
def c9St : HostState :=
  { zeroHost with regs := fun r => if r = 33 then 7 else 0 }

/-- C9 witness: `divwu`/`divw` immediate folds with zero divisor and the
overflow pair, and the emitted `divw` diamond on the runtime pair
(7, 0), all give the defined total results. -/
theorem C9_division_totality_witness :
    (∀ i, i < 2 ^ 32 → ∃ j', divwux baseCtx baseInst (c9Jit i 0) = some j' ∧
        j'.gprImm 3 = some 0) ∧
    (∀ i, i < 2 ^ 32 → ∃ j', divwx baseCtx baseInst (c9Jit i 0) = some j' ∧
        j'.gprImm 3 = some (if sext32 i < 0 then 4294967295 else 0)) ∧
    (∃ j', divwx baseCtx baseInst (c9Jit 2147483648 4294967295) = some j' ∧
        j'.gprImm 3 = some 4294967295) ∧
    (∃ j', divwx baseCtx baseInst emptyJit = some j' ∧
      (runCode trivFPSem j'.code c9St).regs 35 =
        (if sext32 0 = 0 ∨ (7 = 2147483648 ∧ sext32 0 = -1) then
          (if sext32 7 < 0 then 4294967295 else 0)
        else toU32 (Int.tdiv (sext32 7) (sext32 0)))) :=
  C9_division_totality baseCtx baseInst trivFPSem c9St 7 0 (by decide)
    (by decide) rfl rfl rfl rfl rfl rfl rfl rfl

set_option maxRecDepth 8000 in
theorem force25_core (v : Nat) (hv : v < 2 ^ 64) :
    (v &&& 18446744073575333888) + (v &&& 134217728) =
      (v &&& 18446744073441116160) + (v &&& 134217728) * 2 := by
  rw [show (18446744073575333888 : Nat) = (2 ^ 37 - 1) * 2 ^ 27 by norm_num,
    show (18446744073441116160 : Nat) = (2 ^ 36 - 1) * 2 ^ 28 by norm_num,
    show (134217728 : Nat) = (2 ^ 1 - 1) * 2 ^ 27 by norm_num,
    land_field, land_field, land_field]
  norm_num
  omega

theorem force25_ref (v : Nat) (hv : v < 2 ^ 64) :
    force25Formula v = roundTo25Ref v := by
  unfold force25Formula roundTo25Ref w64
  simp only [Nat.mod_eq_of_lt hv]
  rw [show (0xFFFFFFFFF0000000 : Nat) = (2 ^ 36 - 1) * 2 ^ 28 by norm_num,
    show (0x8000000 : Nat) = (2 ^ 1 - 1) * 2 ^ 27 by norm_num,
    land_field, land_field]
  have hq : v / 2 ^ 28 < 2 ^ 36 := by omega
  rw [Nat.mod_eq_of_lt hq]
  omega

theorem force25_code_eq (v : Nat) (hv : v < 2 ^ 64) :
    ((v &&& 18446744073575333888) + (v &&& 134217728)) %
      18446744073709551616 = force25Formula v := by
  unfold force25Formula w64
  rw [Nat.mod_eq_of_lt hv, force25_core v hv,
    show ((2 : Nat) ^ 64) = 18446744073709551616 by norm_num]

set_option maxHeartbeats 2000000 in
/-- **C5.** `Force25BitPrecision` computes, on every 64-bit lane value,
the claimed closed formula `(input & ~0xFFFFFFF) + ((input & 2^27) << 1)`
(both in the quad form and in the scalar form, whose upper lane is
zeroed), and that formula equals the reference model that masks the low
28 mantissa bits and rounds to nearest — the carry into higher
mantissa/exponent bits is part of the 64-bit addition. -/
theorem C5_force25bit_precision (fs : FPSem) (j : JitS) (st : HostState)
    (vLo vHi : Nat) (hLo : vLo < 2 ^ 64) (hHi : vHi < 2 ^ 64)
    (hstLo : st.fpLo 1 = vLo) (hstHi : st.fpHi 1 = vHi) :
    (∃ L, (Force25BitPrecision true 0 1 2 j).code = j.code ++ L ∧
      ((runCode fs L st).fpLo 0 = force25Formula vLo ∧
       (runCode fs L st).fpHi 0 = force25Formula vHi)) ∧
    (∃ L, (Force25BitPrecision false 0 1 2 j).code = j.code ++ L ∧
      ((runCode fs L st).fpLo 0 = force25Formula vLo ∧
       (runCode fs L st).fpHi 0 = 0)) ∧
    (∀ v, v < 2 ^ 64 → force25Formula v = roundTo25Ref v) := by
  have hwLo : w64 vLo = vLo := Nat.mod_eq_of_lt hLo
  have hwHi : w64 vHi = vHi := Nat.mod_eq_of_lt hHi
  refine ⟨⟨[.vmoviSplat32 2 8 24, .vmovi64 0 18446744069414584320, .vbic 2 2 0,
      .vorrSplat32 0 248 24, .vand 2 1 2, .vand 0 1 0, .vadd64v 0 0 2],
      by simp [Force25BitPrecision, emit], ?_, ?_⟩,
    ⟨[.vmoviSplat32 2 8 24, .vmovi64 0 18446744069414584320, .vbic 2 2 0,
      .vorrSplat32 0 248 24, .vand 2 1 2, .vand 0 1 0, .vaddScalarD 0 0 2],
      by simp [Force25BitPrecision, emit], ?_, ?_⟩,
    fun v hv => force25_ref v hv⟩ <;>
  · rw [runCode_straight fs _ st (by rfl)]
    simp [step, setW, w32, w64, notX, Function.update_apply, hstLo, hstHi]
    first
      | rfl
      | (rw [show ((576460752437641216 : Nat) &&& 4294967295) = 134217728 from
            by rfl]
         first
           | exact force25_code_eq vLo hLo
           | exact force25_code_eq vHi hHi)
      | skip

/-- The host state of the C5 witness: lane values 0x000FFFFFF8000000
(a rounding-boundary pattern whose increment carries into the exponent)
and 0 in vector register V1. -/
def c5St : HostState :=
  { zeroHost with fpLo := fun r => if r = 1 then 4503599493152768 else 0 }

/-- C5 witness: `Force25BitPrecision` on the boundary pattern
0x000FFFFFF8000000 — the round-to-nearest increment carries into the
exponent — matches the claim formula and the reference model. -/
theorem C5_force25bit_precision_witness :
    (∃ L, (Force25BitPrecision true 0 1 2 emptyJit).code = emptyJit.code ++ L ∧
      ((runCode trivFPSem L c5St).fpLo 0 = force25Formula 4503599493152768 ∧
       (runCode trivFPSem L c5St).fpHi 0 = force25Formula 0)) ∧
    (∃ L, (Force25BitPrecision false 0 1 2 emptyJit).code = emptyJit.code ++ L ∧
      ((runCode trivFPSem L c5St).fpLo 0 = force25Formula 4503599493152768 ∧
       (runCode trivFPSem L c5St).fpHi 0 = 0)) ∧
    (∀ v, v < 2 ^ 64 → force25Formula v = roundTo25Ref v) :=
  C5_force25bit_precision trivFPSem emptyJit c5St 4503599493152768 0
    (by decide) (by decide) rfl rfl

theorem expF32_fabs (x : Nat) : expF32 (fabs32 x) = expF32 x := by
  unfold expF32 fabs32 w32
  omega

theorem frac32_fabs (x : Nat) : frac32 (fabs32 x) = frac32 x := by
  unfold frac32 fabs32 w32
  omega

theorem isNaN32_fabs (x : Nat) : isNaN32 (fabs32 x) = isNaN32 x := by
  unfold isNaN32
  rw [expF32_fabs, frac32_fabs]

theorem fast_imp_exact (fz : Bool) (x : Nat)
    (h : singleToDoubleFastPath fz x = true) : fcvtNative fz x = cstdRef x := by
  unfold singleToDoubleFastPath fcmpGTZero at h
  rw [isNaN32_fabs, expF32_fabs] at h
  rw [Bool.and_eq_true, Bool.not_eq_true'] at h
  obtain ⟨h1, h2⟩ := h
  unfold fcvtNative cstdRef
  rw [h1, if_neg (by simp)]
  have h3 : (fz && decide (expF32 x = 0)) = false := by
    by_contra hcon
    rw [Bool.not_eq_false] at hcon
    rw [if_pos (by simpa using hcon)] at h2
    simp at h2
  rw [h3, if_neg (by simp)]

theorem pairFastPath_split (fz : Bool) (x0 x1 : Nat) :
    pairFastPath fz x0 x1 =
      (singleToDoubleFastPath fz x0 && singleToDoubleFastPath fz x1) := by
  unfold pairFastPath singleToDoubleFastPath facgtLane insByte7 isNaN64 w64
  by_cases f0 : fcmpGTZero fz (fabs32 x0) <;>
    by_cases f1 : fcmpGTZero fz (fabs32 x1) <;>
      simp [f0, f1, isNaN64]

/-- **C6.** For every binary32 input pattern, the single-to-double
conversions give the same result through the fast and the slow route:
the per-lane classification check (FABS/FACGT + FCMP) passes only on
inputs where the native conversion instruction agrees bit-for-bit with
the external bit-exact reference routine, both for the lower-lane
conversion and for the paired conversion (whose two-lane check is
exactly the conjunction of the per-lane checks), so the selected result
always equals the reference. -/
theorem C6_single_to_double_fast_slow (fz : Bool) (x x0 x1 : Nat) :
    (singleToDoubleFastPath fz x = true → fcvtNative fz x = cstdRef x) ∧
    (convertSingleToDoubleLowerResult fz x = cstdRef x) ∧
    (pairFastPath fz x0 x1 = true →
      fcvtNative fz x0 = cstdRef x0 ∧ fcvtNative fz x1 = cstdRef x1) ∧
    (convertSingleToDoublePairResult fz x0 x1 = (cstdRef x0, cstdRef x1)) := by
  refine ⟨fast_imp_exact fz x, ?_, ?_, ?_⟩
  · unfold convertSingleToDoubleLowerResult
    by_cases h : singleToDoubleFastPath fz x = true
    · rw [if_pos h, fast_imp_exact fz x h]
    · rw [if_neg h]
  · intro hp
    rw [pairFastPath_split, Bool.and_eq_true] at hp
    exact ⟨fast_imp_exact fz x0 hp.1, fast_imp_exact fz x1 hp.2⟩
  · unfold convertSingleToDoublePairResult
    by_cases hp : pairFastPath fz x0 x1 = true
    · rw [if_pos hp, pairFastPath_split, Bool.and_eq_true] at *
      rw [fast_imp_exact fz x0 hp.1, fast_imp_exact fz x1 hp.2]
    · rw [if_neg hp]

/-- C6 witness: on 1.0f (fast: a normal), a signaling NaN pattern and a
denormal (slow lanes), the selected results equal the bit-exact
reference; the checks select the fast path only for the pair of
normals. -/
theorem C6_single_to_double_fast_slow_witness :
    ((singleToDoubleFastPath false 1065353216 = true →
      fcvtNative false 1065353216 = cstdRef 1065353216) ∧
    (convertSingleToDoubleLowerResult false 1065353216 =
      cstdRef 1065353216) ∧
    (pairFastPath false 2139095041 1 = true →
      fcvtNative false 2139095041 = cstdRef 2139095041 ∧
      fcvtNative false 1 = cstdRef 1) ∧
    (convertSingleToDoublePairResult false 2139095041 1 =
      (cstdRef 2139095041, cstdRef 1))) ∧
    singleToDoubleFastPath false 1065353216 = true ∧
    pairFastPath false 2139095041 1 = false :=
  ⟨C6_single_to_double_fast_slow false 1065353216 2139095041 1,
   by decide, by decide⟩

/-- The translation state of the C3 amended-claim witness: r1 = 3,
r2 = 5, r4 = 7 as immediates. -/
def c3wJit : JitS :=
  { emptyJit with
    gprImm := fun g => if g = 1 then some 3 else
      if g = 2 then some 5 else if g = 4 then some 7 else none }

/-- C3 amended-claim witness: `addcx` on immediates 3 and 5 folds the
carry to a compile-time constant and emits no carry-computing code. -/
theorem C3_amended_carry_folding_witness :
    ∃ j', addcx baseCtx baseInst c3wJit = some j' ∧
      (∃ L, j'.code = c3wJit.code ++ L ∧ L.all (fun i => !writesCarry i) = true) ∧
      j'.carry = (if 2 ^ 32 ≤ 3 + 5 then CarryFlag.constantTrue
        else CarryFlag.constantFalse) :=
  (C3_amended_carry_folding baseCtx baseInst c3wJit 3 5 7 (by norm_num) (by norm_num)
    (by norm_num) rfl rfl rfl rfl rfl).1

end DolphinJit
